import Mathlib

/-!
Verification of the constrained evolutionary policy-search engine of the
`augmentai` repository: the core data model (`Transform`, `Policy`), the
domain safety model (`Domain`, `DomainConstraint`), the rule enforcer
(`SafetyValidator`, `RuleEnforcer`), the candidate generator
(`PolicySampler`), the proxy fitness evaluator (`PolicyEvaluator`) and the
evolutionary optimizer (`PolicyOptimizer`).

Modelling conventions, applied throughout:
* Python floats and ints are modelled as exact rationals `ℚ` / integers;
  transcendental functions (`math.exp`, `math.sqrt`) use `Real.exp` /
  `Real.sqrt`, so the evaluator's score lives in `ℝ`.
* Python dicts are modelled as insertion-ordered association lists with
  unique keys; Python sets as insertion-ordered duplicate-free lists.
* human-readable message strings (errors / warnings / suggestions /
  constraint reasons) are modelled as structured tags carrying the data the
  source interpolates into the message; the exact message text is not part
  of any verified property.
* `random.Random` is modelled as an abstract state machine `RngOps`
  (state type `σ`, one transition per primitive the source calls), threaded
  through the code in exactly the source's call order.  `LawfulRng` states
  the ranges the real generator guarantees.
* exceptions (`ZeroDivisionError`, `IndexError`, `ValueError`) are modelled
  by `Except PyError`.
* wall-clock fields (`created_at`, `search_time`, `timestamp`) are omitted:
  no claim concerns them.
-/

namespace AugmentAI

/-! ## Core data model (src/augmentai/core/policy.py) -/

/-- `TransformCategory` of core/policy.py. -/
inductive TransformCategory where
  | geometric | color | blur | noise | distortion | crop | flip | rotate | scale | other
deriving DecidableEq, Repr

/-- A transform-parameter value: a numeric scalar, a string, or a list/tuple
of numbers (e.g. `var_limit=(10, 50)`).  In this repository list-valued
parameters hold only numbers, so the list case carries `List ℚ`;
non-numeric scalars (strings) are never clamped nor range-checked, exactly
as the source's `isinstance(value, (int, float))` guards behave. -/
inductive PValue where
  | num (q : ℚ)
  | str (s : String)
  | tup (l : List ℚ)
deriving DecidableEq, Repr

/-- `Transform` of core/policy.py.  `parameters` models the Python dict as
an insertion-ordered association list. -/
structure Transform where
  name : String
  probability : ℚ := 1/2
  parameters : List (String × PValue) := []
  category : TransformCategory := .other
  magnitude : Option ℤ := none
deriving DecidableEq, Repr

instance : Inhabited Transform := ⟨{ name := "" }⟩

/-- The constructor invariant `__post_init__` enforces (violations raise
`ValueError`, so every constructed `Transform` satisfies it). -/
def Transform.wf (t : Transform) : Prop :=
  0 ≤ t.probability ∧ t.probability ≤ 1 ∧
    (∀ m ∈ t.magnitude, 0 ≤ m ∧ m ≤ 10)

/-- `Policy` of core/policy.py (`created_at` omitted: wall clock). -/
structure Policy where
  name : String
  domain : String
  transforms : List Transform := []
  description : String := ""
  magnitudeBins : ℕ := 10
  numOps : ℕ := 2
  metadata : List (String × String) := []
deriving DecidableEq, Repr

instance : Inhabited Policy := ⟨{ name := "", domain := "" }⟩

/-- Every transform's parameter dict has unique keys - automatic for a
Python dict, stated explicitly for the association-list model. -/
def Policy.wfParams (p : Policy) : Prop :=
  ∀ t ∈ p.transforms, (t.parameters.map (·.1)).Nodup

/-- Every transform's probability is in `[0,1]` - enforced by the
`Transform` constructor in the source. -/
def Policy.wfProbs (p : Policy) : Prop :=
  ∀ t ∈ p.transforms, 0 ≤ t.probability ∧ t.probability ≤ 1

/-! ## Domain safety model (src/augmentai/domains/base.py) -/

/-- `ConstraintLevel` of domains/base.py. -/
inductive ConstraintLevel where
  | forbidden | discouraged | recommended | required
deriving DecidableEq, Repr

/-- `DomainConstraint` of domains/base.py.  The `reason` string is omitted:
it is only interpolated into human-readable messages. -/
structure DomainConstraint where
  transformName : String
  level : ConstraintLevel
  parameterLimits : Option (List (String × ℚ × ℚ)) := none
deriving DecidableEq, Repr

/-- Python truthiness of `constraint.parameter_limits`: `None` and the
empty dict are both falsy. -/
def DomainConstraint.hasLimits (c : DomainConstraint) : Bool :=
  match c.parameterLimits with
  | some (_ :: _) => true
  | _ => false

/-- The limit entries of a constraint (empty when falsy). -/
def DomainConstraint.limits (c : DomainConstraint) : List (String × ℚ × ℚ) :=
  c.parameterLimits.getD []

/-- `Domain` of domains/base.py.  The two Python sets are modelled as
insertion-ordered duplicate-free lists (`allowed_categories` is omitted:
the modelled code never reads it). -/
structure Domain where
  name : String
  constraints : List DomainConstraint := []
  forbiddenCategories : List TransformCategory := []
  forbiddenTransforms : List String := []
  recommendedTransforms : List String := []
deriving DecidableEq, Repr

/-- `set.add` on the ordered-list model of a Python set. -/
def setAdd (l : List String) (s : String) : List String :=
  if s ∈ l then l else l ++ [s]

/-- `Domain.__init__`: empty constraint list and derived sets. -/
def Domain.empty (name : String) : Domain := { name := name }

/-- `Domain.add_constraint`: append the constraint and incrementally update
the two derived sets. -/
def Domain.addConstraint (d : Domain) (c : DomainConstraint) : Domain :=
  { d with
    constraints := d.constraints ++ [c]
    forbiddenTransforms :=
      if c.level = .forbidden then setAdd d.forbiddenTransforms c.transformName
      else d.forbiddenTransforms
    recommendedTransforms :=
      if c.level = .recommended then setAdd d.recommendedTransforms c.transformName
      else d.recommendedTransforms }

/-- A direct `self.recommended_transforms.add(name)` in a `_setup`. -/
def Domain.addRecommended (d : Domain) (s : String) : Domain :=
  { d with recommendedTransforms := setAdd d.recommendedTransforms s }

/-- A direct `self.forbidden_categories.add(cat)` in a `_setup`. -/
def Domain.addForbiddenCategory (d : Domain) (c : TransformCategory) : Domain :=
  { d with forbiddenCategories :=
      if c ∈ d.forbiddenCategories then d.forbiddenCategories
      else d.forbiddenCategories ++ [c] }

/-! ### Validation results.  Errors, warnings and suggestions are
structured tags standing for the source's message strings. -/

/-- One validation error of `Domain.validate_transform`. -/
inductive VError where
  | categoryForbidden (transformName : String) (cat : TransformCategory)
  | nameForbidden (transformName : String)
  | paramOutOfRange (paramName : String) (value mn mx : ℚ)
deriving DecidableEq, Repr

/-- One validation warning. -/
inductive VWarning where
  | discouraged (transformName : String)
  | removedTransform (transformName : String)
  | suggestion (transformName : String)
deriving DecidableEq, Repr

/-- `ValidationResult` of domains/base.py; `is_valid` is false exactly when
an error was added. -/
structure ValidationResult where
  isValid : Bool
  errors : List VError := []
  warnings : List VWarning := []
  suggestions : List String := []
deriving DecidableEq, Repr

/-- Dict lookup among a constraint's parameter limits. -/
def lookupLimit (limits : List (String × ℚ × ℚ)) (k : String) : Option (ℚ × ℚ) :=
  (limits.find? (fun e => e.1 = k)).map (·.2)

/-- Dict lookup among a transform's parameters. -/
def lookupParam (params : List (String × PValue)) (k : String) : Option PValue :=
  (params.find? (fun e => e.1 = k)).map (·.2)

/-- The out-of-range errors one parameter value produces against one
`(min, max)` bound (range values are checked endpoint by endpoint; a
non-numeric scalar is never checked). -/
def pvalueErrors (pn : String) (mn mx : ℚ) : PValue → List VError
  | .num q => if mn ≤ q ∧ q ≤ mx then [] else [.paramOutOfRange pn q mn mx]
  | .tup l => l.foldr (fun q acc =>
      (if mn ≤ q ∧ q ≤ mx then [] else [VError.paramOutOfRange pn q mn mx]) ++ acc) []
  | .str _ => []

/-- The out-of-range errors one constraint contributes for a transform. -/
def constraintParamErrors (c : DomainConstraint) (t : Transform) : List VError :=
  if c.transformName = t.name ∧ c.hasLimits then
    c.limits.foldr (fun e acc =>
      (match lookupParam t.parameters e.1 with
       | some v => pvalueErrors e.1 e.2.1 e.2.2 v
       | none => []) ++ acc) []
  else []

/-- `Domain.validate_transform` of domains/base.py: category check, then
forbidden-name check, then parameter limits per constraint in order, then
discouraged warnings. -/
def Domain.validateTransform (d : Domain) (t : Transform) : ValidationResult :=
  let catErrs : List VError :=
    if t.category ∈ d.forbiddenCategories then [.categoryForbidden t.name t.category] else []
  let nameErrs : List VError :=
    if t.name ∈ d.forbiddenTransforms then [.nameForbidden t.name] else []
  let paramErrs : List VError :=
    d.constraints.foldr (fun c acc => constraintParamErrors c t ++ acc) []
  let discWarns : List VWarning :=
    d.constraints.foldr (fun c acc =>
      (if c.transformName = t.name ∧ c.level = .discouraged then
        [VWarning.discouraged t.name] else []) ++ acc) []
  let errs := catErrs ++ nameErrs ++ paramErrs
  { isValid := errs.isEmpty, errors := errs, warnings := discWarns }

/-- `Domain.validate_policy`: merge the per-transform results, then suggest
every recommended transform that the policy does not use. -/
def Domain.validatePolicy (d : Domain) (p : Policy) : ValidationResult :=
  let per := p.transforms.map d.validateTransform
  let errs := (per.map (·.errors)).flatten
  let warns := (per.map (·.warnings)).flatten
  let used := p.transforms.map (·.name)
  let suggs := d.recommendedTransforms.filter (fun r => r ∉ used)
  { isValid := errs.isEmpty, errors := errs, warnings := warns, suggestions := suggs }

/-! ## Safety validator (src/augmentai/rules/validator.py) -/

/-- `SafetyResult` of rules/validator.py (the source initialises `policy`
to `None` but `validate` always fills it, so it is modelled total; the
schema-derived warning strings are not modelled - they are pure message
text and no claim concerns them). -/
structure SafetyResult where
  isSafe : Bool
  policy : Policy
  originalPolicy : Policy
  removedTransforms : List Transform := []
  modifiedTransforms : List (Transform × Transform) := []
  errors : List VError := []
  warnings : List VWarning := []
deriving DecidableEq, Repr

/-- `SafetyValidator.__init__` state (the schema argument only produces
warning text and is omitted). -/
structure SafetyValidator where
  domain : Domain
  strict : Bool := true

/-- `max(min_val, min(max_val, value))`. -/
def clampQ (mn mx v : ℚ) : ℚ := max mn (min mx v)

/-- Clamp one parameter value to `[mn, mx]` (list values endpoint-wise,
non-numeric scalars unchanged), as in `SafetyValidator._adjust_parameters`. -/
def clampPValue (mn mx : ℚ) : PValue → PValue
  | .num q => .num (clampQ mn mx q)
  | .tup l => .tup (l.map (clampQ mn mx))
  | .str s => .str s

/-- The clamped parameter dict for one constraint's limits: every parameter
whose name carries a limit is clamped, the rest are unchanged (Python
updates the dict in place, preserving key order). -/
def clampParams (limits : List (String × ℚ × ℚ)) (params : List (String × PValue)) :
    List (String × PValue) :=
  params.map (fun kv =>
    match lookupLimit limits kv.1 with
    | some (mn, mx) => (kv.1, clampPValue mn mx kv.2)
    | none => kv)

/-- The loop body of `SafetyValidator._adjust_parameters`: the first
matching constraint with limits whose clamping changes something yields a
new transform; otherwise the transform is returned unchanged. -/
def adjustLoop (t : Transform) : List DomainConstraint → Transform
  | [] => t
  | c :: cs =>
    if c.transformName = t.name ∧ c.hasLimits then
      let adjusted := clampParams c.limits t.parameters
      if adjusted ≠ t.parameters then { t with parameters := adjusted }
      else adjustLoop t cs
    else adjustLoop t cs

/-- `SafetyValidator._adjust_parameters`. -/
def SafetyValidator.adjustParameters (v : SafetyValidator) (t : Transform) : Transform :=
  adjustLoop t v.domain.constraints

/-- Accumulator of `SafetyValidator.validate`'s per-transform loop. -/
structure ProcAcc where
  validated : List Transform := []
  removed : List Transform := []
  modified : List (Transform × Transform) := []
  errors : List VError := []
  warnings : List VWarning := []
  isSafe : Bool := true
deriving DecidableEq, Repr

/-- The per-transform loop of `SafetyValidator.validate`: a transform with
domain errors is removed (strict) or kept with its errors recorded and the
result marked unsafe (non-strict); an error-free transform is parameter
adjusted, recorded under `modified` when the adjustment changed it, and its
domain warnings are appended. -/
def processTransforms (v : SafetyValidator) : List Transform → ProcAcc
  | [] => {}
  | t :: ts =>
    let dr := v.domain.validateTransform t
    let rest := processTransforms v ts
    if dr.errors.isEmpty then
      let adjusted := v.adjustParameters t
      { rest with
        validated := adjusted :: rest.validated
        modified := (if adjusted ≠ t then [(t, adjusted)] else []) ++ rest.modified
        warnings := dr.warnings ++ rest.warnings }
    else if v.strict then
      { rest with
        removed := t :: rest.removed
        warnings := .removedTransform t.name :: rest.warnings }
    else
      { rest with
        validated := t :: rest.validated
        errors := dr.errors ++ rest.errors
        isSafe := false }

/-- `SafetyValidator.validate` of rules/validator.py: process the
transforms, rebuild the policy from the survivors preserving every
non-transform field, then append the domain suggestions as warnings. -/
def SafetyValidator.validate (v : SafetyValidator) (p : Policy) : SafetyResult :=
  let acc := processTransforms v p.transforms
  let pol : Policy :=
    { name := p.name, domain := p.domain, transforms := acc.validated
      description := p.description, magnitudeBins := p.magnitudeBins
      numOps := p.numOps, metadata := p.metadata }
  let dv := v.domain.validatePolicy pol
  { isSafe := acc.isSafe, policy := pol, originalPolicy := p
    removedTransforms := acc.removed, modifiedTransforms := acc.modified
    errors := acc.errors
    warnings := acc.warnings ++ dv.suggestions.map .suggestion }

/-! ## Rule enforcer (src/augmentai/rules/enforcement.py) -/

/-- `EnforcementResult` of rules/enforcement.py (`llm_reasoning` and the
`enforcer_notes` message strings are omitted). -/
structure EnforcementResult where
  success : Bool
  policy : Option Policy := none
  safetyResult : SafetyResult
deriving DecidableEq, Repr

/-- `RuleEnforcer.enforce_policy` with the enforcer's default strict mode:
validate, then succeed exactly when at least one transform survived. -/
def RuleEnforcer.enforcePolicy (d : Domain) (p : Policy) : EnforcementResult :=
  let sr := SafetyValidator.validate { domain := d, strict := true } p
  if sr.policy.transforms.length > 0 then
    { success := true, policy := some sr.policy, safetyResult := sr }
  else
    { success := false, policy := none, safetyResult := sr }

/-! ## Concrete domains (src/augmentai/domains/{medical,ocr,satellite,natural}.py) -/

/-- `MedicalDomain._setup`. -/
def medicalDomain : Domain :=
  ((Domain.empty "medical")
    |>.addConstraint ⟨"ElasticTransform", .forbidden, none⟩
    |>.addConstraint ⟨"GridDistortion", .forbidden, none⟩
    |>.addConstraint ⟨"OpticalDistortion", .forbidden, none⟩
    |>.addConstraint ⟨"ColorJitter", .forbidden, none⟩
    |>.addConstraint ⟨"HueSaturationValue", .forbidden, none⟩
    |>.addConstraint ⟨"RGBShift", .forbidden, none⟩
    |>.addConstraint ⟨"ChannelShuffle", .forbidden, none⟩
    |>.addConstraint ⟨"Posterize", .forbidden, none⟩
    |>.addConstraint ⟨"Solarize", .forbidden, none⟩
    |>.addConstraint ⟨"CoarseDropout", .forbidden, none⟩
    |>.addConstraint ⟨"Cutout", .forbidden, none⟩
    |>.addConstraint ⟨"MotionBlur", .discouraged, none⟩
    |>.addConstraint ⟨"GaussianBlur", .discouraged, some [("blur_limit", 3, 5)]⟩
    |>.addConstraint ⟨"Sharpen", .discouraged, none⟩
    |>.addConstraint ⟨"Rotate", .recommended, some [("limit", -15, 15)]⟩
    |>.addConstraint ⟨"RandomBrightnessContrast", .recommended,
        some [("brightness_limit", 0, 1/10), ("contrast_limit", 0, 1/10)]⟩
    |>.addConstraint ⟨"GaussNoise", .recommended, some [("var_limit", 0, 1/50)]⟩
    |>.addConstraint ⟨"RandomScale", .recommended, some [("scale_limit", 0, 1/10)]⟩
    |>.addRecommended "HorizontalFlip"
    |>.addRecommended "VerticalFlip"
    |>.addRecommended "RandomRotate90"
    |>.addRecommended "RandomBrightnessContrast"
    |>.addRecommended "GaussNoise"
    |>.addForbiddenCategory .distortion)

/-- `OCRDomain._setup`. -/
def ocrDomain : Domain :=
  ((Domain.empty "ocr")
    |>.addConstraint ⟨"ElasticTransform", .forbidden, none⟩
    |>.addConstraint ⟨"GridDistortion", .forbidden, none⟩
    |>.addConstraint ⟨"MotionBlur", .forbidden, none⟩
    |>.addConstraint ⟨"Defocus", .forbidden, none⟩
    |>.addConstraint ⟨"ZoomBlur", .forbidden, none⟩
    |>.addConstraint ⟨"Morphological", .forbidden, none⟩
    |>.addConstraint ⟨"GaussianBlur", .discouraged, some [("blur_limit", 3, 5)]⟩
    |>.addConstraint ⟨"MedianBlur", .discouraged, none⟩
    |>.addConstraint ⟨"Downscale", .discouraged, none⟩
    |>.addConstraint ⟨"Rotate", .recommended, some [("limit", -10, 10)]⟩
    |>.addConstraint ⟨"Perspective", .recommended, some [("scale", 1/50, 2/25)]⟩
    |>.addConstraint ⟨"RandomBrightnessContrast", .recommended,
        some [("brightness_limit", 0, 3/10), ("contrast_limit", 0, 3/10)]⟩
    |>.addConstraint ⟨"GaussNoise", .recommended, some [("var_limit", 0, 3/100)]⟩
    |>.addConstraint ⟨"ShiftScaleRotate", .recommended,
        some [("shift_limit", 0, 1/10), ("scale_limit", 0, 3/20), ("rotate_limit", -10, 10)]⟩
    |>.addRecommended "RandomBrightnessContrast"
    |>.addRecommended "GaussNoise"
    |>.addRecommended "Rotate"
    |>.addRecommended "ShiftScaleRotate"
    |>.addRecommended "ToGray"
    |>.addRecommended "CLAHE"
    |>.addRecommended "Sharpen")

/-- `SatelliteDomain._setup`. -/
def satelliteDomain : Domain :=
  ((Domain.empty "satellite")
    |>.addConstraint ⟨"ColorJitter", .forbidden, none⟩
    |>.addConstraint ⟨"HueSaturationValue", .forbidden, none⟩
    |>.addConstraint ⟨"RGBShift", .forbidden, none⟩
    |>.addConstraint ⟨"ChannelShuffle", .forbidden, none⟩
    |>.addConstraint ⟨"ToGray", .forbidden, none⟩
    |>.addConstraint ⟨"ToSepia", .forbidden, none⟩
    |>.addConstraint ⟨"FancyPCA", .forbidden, none⟩
    |>.addConstraint ⟨"CLAHE", .discouraged, none⟩
    |>.addConstraint ⟨"Equalize", .discouraged, none⟩
    |>.addConstraint ⟨"Posterize", .discouraged, none⟩
    |>.addConstraint ⟨"Rotate", .recommended, some [("limit", -180, 180)]⟩
    |>.addConstraint ⟨"HorizontalFlip", .recommended, none⟩
    |>.addConstraint ⟨"VerticalFlip", .recommended, none⟩
    |>.addConstraint ⟨"RandomRotate90", .recommended, none⟩
    |>.addConstraint ⟨"RandomScale", .recommended, some [("scale_limit", 0, 1/2)]⟩
    |>.addConstraint ⟨"ShiftScaleRotate", .recommended,
        some [("shift_limit", 0, 1/5), ("scale_limit", 0, 3/10), ("rotate_limit", -180, 180)]⟩
    |>.addConstraint ⟨"RandomBrightnessContrast", .recommended,
        some [("brightness_limit", 0, 1/5), ("contrast_limit", 0, 1/5)]⟩
    |>.addConstraint ⟨"GaussNoise", .recommended, some [("var_limit", 0, 1/20)]⟩
    |>.addRecommended "HorizontalFlip"
    |>.addRecommended "VerticalFlip"
    |>.addRecommended "RandomRotate90"
    |>.addRecommended "Rotate"
    |>.addRecommended "RandomScale"
    |>.addRecommended "ShiftScaleRotate"
    |>.addRecommended "RandomBrightnessContrast"
    |>.addRecommended "GaussNoise")

/-- `NaturalDomain._setup`. -/
def naturalDomain : Domain :=
  ((Domain.empty "natural")
    |>.addConstraint ⟨"Solarize", .discouraged, none⟩
    |>.addConstraint ⟨"Posterize", .discouraged, none⟩
    |>.addConstraint ⟨"Superpixels", .discouraged, none⟩
    |>.addConstraint ⟨"HorizontalFlip", .recommended, none⟩
    |>.addConstraint ⟨"Rotate", .recommended, some [("limit", -45, 45)]⟩
    |>.addConstraint ⟨"RandomBrightnessContrast", .recommended,
        some [("brightness_limit", 0, 3/10), ("contrast_limit", 0, 3/10)]⟩
    |>.addConstraint ⟨"HueSaturationValue", .recommended,
        some [("hue_shift_limit", 0, 30), ("sat_shift_limit", 0, 40), ("val_shift_limit", 0, 30)]⟩
    |>.addConstraint ⟨"ColorJitter", .recommended, none⟩
    |>.addConstraint ⟨"RandomScale", .recommended, some [("scale_limit", 0, 3/10)]⟩
    |>.addConstraint ⟨"ShiftScaleRotate", .recommended, none⟩
    |>.addConstraint ⟨"GaussNoise", .recommended, none⟩
    |>.addConstraint ⟨"GaussianBlur", .recommended, none⟩
    |>.addConstraint ⟨"RandomCrop", .recommended, none⟩
    |>.addConstraint ⟨"CoarseDropout", .recommended, none⟩
    |>.addRecommended "HorizontalFlip"
    |>.addRecommended "Rotate"
    |>.addRecommended "RandomBrightnessContrast"
    |>.addRecommended "HueSaturationValue"
    |>.addRecommended "ColorJitter"
    |>.addRecommended "RandomScale"
    |>.addRecommended "ShiftScaleRotate"
    |>.addRecommended "GaussNoise"
    |>.addRecommended "GaussianBlur"
    |>.addRecommended "RandomCrop"
    |>.addRecommended "CoarseDropout")

/-- The domain registry `_DOMAINS` with `get_domain`'s lowercase lookup;
`none` models the `ValueError` raised for an unknown name. -/
def getDomain? (name : String) : Option Domain :=
  let n := name.toLower
  if n = "medical" then some medicalDomain
  else if n = "ocr" then some ocrDomain
  else if n = "satellite" then some satelliteDomain
  else if n = "natural" then some naturalDomain
  else none

/-! ## Python runtime helpers -/

/-- The exceptions the modelled code can raise. -/
inductive PyError where
  | divisionByZero | indexError | valueError
deriving DecidableEq, Repr

/-- Python's `round` to an integer: round half to even. -/
def roundHalfEven (q : ℚ) : ℤ :=
  let f := ⌊q⌋
  let r := q - f
  if r < 1/2 then f
  else if 1/2 < r then f + 1
  else if f % 2 = 0 then f else f + 1

/-- Python's `round(x, digits)` (on the exact rational model). -/
def pyRound (q : ℚ) (digits : ℕ) : ℚ :=
  (roundHalfEven (q * (10 : ℚ) ^ digits) : ℚ) / (10 : ℚ) ^ digits

/-- Python's `int(x)`: truncation toward zero. -/
def pyTrunc (q : ℚ) : ℤ := if 0 ≤ q then ⌊q⌋ else -⌊-q⌋

/-- The `random.Random` primitives the engine calls, as an abstract state
machine over a state type `σ`.  `sampleIdxs n k` stands for
`random.sample(lst, k)` on a list of length `n` (the chosen indices in
selection order) and `choiceIdx n` for `random.choice` on such a list. -/
structure RngOps (σ : Type) where
  mkRng : ℤ → σ
  random : σ → ℚ × σ
  uniform : ℚ → ℚ → σ → ℚ × σ
  randint : ℤ → ℤ → σ → ℤ × σ
  randrange : ℕ → σ → ℕ × σ
  sampleIdxs : ℕ → ℕ → σ → List ℕ × σ
  choiceIdx : ℕ → σ → ℕ × σ

/-- The output ranges `random.Random` guarantees for each primitive. -/
structure LawfulRng {σ : Type} (ops : RngOps σ) : Prop where
  random_nonneg : ∀ s, 0 ≤ (ops.random s).1
  random_lt_one : ∀ s, (ops.random s).1 < 1
  uniform_mem : ∀ a b s, a ≤ b → a ≤ (ops.uniform a b s).1 ∧ (ops.uniform a b s).1 ≤ b
  randint_mem : ∀ a b s, a ≤ b → a ≤ (ops.randint a b s).1 ∧ (ops.randint a b s).1 ≤ b
  randrange_lt : ∀ n s, 0 < n → (ops.randrange n s).1 < n
  sampleIdxs_length : ∀ n k s, k ≤ n → (ops.sampleIdxs n k s).1.length = k
  sampleIdxs_lt : ∀ n k s, k ≤ n → ∀ i ∈ (ops.sampleIdxs n k s).1, i < n
  choiceIdx_lt : ∀ n s, 0 < n → (ops.choiceIdx n s).1 < n

/-- A degenerate deterministic generator (always the least admissible
draw), used to instantiate theorems at concrete inputs. -/
def trivialRng : RngOps Unit where
  mkRng := fun _ => ()
  random := fun _ => (0, ())
  uniform := fun a _ _ => (a, ())
  randint := fun a _ _ => (a, ())
  randrange := fun _ _ => (0, ())
  sampleIdxs := fun _ k _ => (List.range k, ())
  choiceIdx := fun _ _ => (0, ())

theorem trivialRng_lawful : LawfulRng trivialRng where
  random_nonneg := fun _ => le_refl 0
  random_lt_one := fun _ => by norm_num [trivialRng]
  uniform_mem := fun a b _ h => ⟨le_refl a, h⟩
  randint_mem := fun a b _ h => ⟨le_refl a, h⟩
  randrange_lt := fun n _ h => h
  sampleIdxs_length := fun n k _ _ => List.length_range k
  sampleIdxs_lt := fun n k _ hk i hi => lt_of_lt_of_le (List.mem_range.mp hi) hk
  choiceIdx_lt := fun n _ h => h

/-! ## Policy sampler (src/augmentai/search/sampler.py) -/

/-- `PolicySampler.TRANSFORM_POOL`. -/
def transformPool : List String :=
  ["HorizontalFlip", "VerticalFlip", "Rotate", "RandomBrightnessContrast",
   "GaussNoise", "GaussianBlur", "CLAHE", "ShiftScaleRotate", "CoarseDropout",
   "RandomCrop", "RandomScale", "Perspective", "OpticalDistortion",
   "GridDistortion", "ElasticTransform", "ColorJitter", "HueSaturationValue",
   "ChannelShuffle", "MotionBlur", "MedianBlur", "Sharpen", "Emboss",
   "RandomGamma", "RandomToneCurve", "Solarize", "Posterize", "Equalize",
   "Normalize"]

variable {σ : Type}

/-- `PolicySampler._get_random_params`: per-transform randomized
parameters, drawing from the generator in the source's order. -/
def getRandomParams (ops : RngOps σ) (name : String) (rng : σ) :
    List (String × PValue) × σ :=
  if name = "Rotate" then
    let (i, rng₁) := ops.choiceIdx 5 rng
    ([("limit", .num ([(10 : ℚ), 15, 20, 30, 45].getD i 10))], rng₁)
  else if name = "ShiftScaleRotate" then
    let (u₁, rng₁) := ops.uniform (1/20) (1/5) rng
    let (u₂, rng₂) := ops.uniform (1/20) (1/5) rng₁
    let (i, rng₃) := ops.choiceIdx 3 rng₂
    ([("shift_limit", .num (pyRound u₁ 2)), ("scale_limit", .num (pyRound u₂ 2)),
      ("rotate_limit", .num ([(15 : ℚ), 30, 45].getD i 15))], rng₃)
  else if name = "RandomBrightnessContrast" then
    let (u₁, rng₁) := ops.uniform (1/10) (3/10) rng
    let (u₂, rng₂) := ops.uniform (1/10) (3/10) rng₁
    ([("brightness_limit", .num (pyRound u₁ 2)),
      ("contrast_limit", .num (pyRound u₂ 2))], rng₂)
  else if name = "GaussNoise" then
    let (a, rng₁) := ops.randint 5 20 rng
    let (b, rng₂) := ops.randint 10 40 rng₁
    ([("var_limit", .tup [(a : ℚ), ((a + b : ℤ) : ℚ)])], rng₂)
  else if name = "GaussianBlur" then
    let (i, rng₁) := ops.choiceIdx 3 rng
    ([("blur_limit", .num ([(3 : ℚ), 5, 7].getD i 3))], rng₁)
  else if name = "CLAHE" then
    let (u, rng₁) := ops.uniform 1 4 rng
    ([("clip_limit", .num (pyRound u 1))], rng₁)
  else if name = "CoarseDropout" then
    let (a, rng₁) := ops.randint 4 12 rng
    let (b, rng₂) := ops.randint 8 32 rng₁
    let (c, rng₃) := ops.randint 8 32 rng₂
    ([("max_holes", .num a), ("max_height", .num b), ("max_width", .num c)], rng₃)
  else ([], rng)

/-- The shared transform-building loop of `_generate_random_policy` /
`_generate_safe_policy`: per selected name draw the probability
(`round(uniform(lo, hi), 2)`) then the randomized parameters. -/
def sampleTransforms (ops : RngOps σ) (lo hi : ℚ) :
    σ → List String → List Transform × σ
  | rng, [] => ([], rng)
  | rng, name :: rest =>
    let (u, rng₁) := ops.uniform lo hi rng
    let (params, rng₂) := getRandomParams ops name rng₁
    let (ts, rng₃) := sampleTransforms ops lo hi rng₂ rest
    ({ name := name, probability := pyRound u 2, parameters := params } :: ts, rng₃)

/-- `PolicySampler._generate_random_policy` (the `get_domain` lookup is
resolved once by the caller: repeated registry lookups return equal
values). -/
def generateRandomPolicy (ops : RngOps σ) (dObj : Domain) (domainName : String)
    (idx : ℕ) (rng : σ) : Policy × σ :=
  let valid := transformPool.filter (fun t => t ∉ dObj.forbiddenTransforms)
  let (nT, rng₁) := ops.randint 3 8 rng
  let (idxs, rng₂) := ops.sampleIdxs valid.length (min nT.toNat valid.length) rng₁
  let selected := idxs.map (fun i => valid.getD i "")
  let (ts, rng₃) := sampleTransforms ops (1/5) (4/5) rng₂ selected
  ({ name := domainName ++ "_search_candidate_" ++ toString idx
     domain := domainName, transforms := ts }, rng₃)

/-- `PolicySampler._generate_safe_policy`: only recommended transforms
(with a hard-coded fallback when the domain recommends none). -/
def generateSafePolicy (ops : RngOps σ) (dObj : Domain) (domainName : String)
    (idx : ℕ) (rng : σ) : Policy × σ :=
  let recommended :=
    if dObj.recommendedTransforms.isEmpty then
      ["HorizontalFlip", "Rotate", "RandomBrightnessContrast"]
    else dObj.recommendedTransforms
  let (nT, rng₁) := ops.randint 2 5 rng
  let (idxs, rng₂) :=
    ops.sampleIdxs recommended.length (min nT.toNat recommended.length) rng₁
  let selected := idxs.map (fun i => recommended.getD i "")
  let (ts, rng₃) := sampleTransforms ops (3/10) (3/5) rng₂ selected
  ({ name := domainName ++ "_safe_candidate_" ++ toString idx
     domain := domainName, transforms := ts }, rng₃)

/-- The candidate loop of `PolicySampler.sample`: enforce each random
candidate, fall back to a safe candidate when enforcement empties it, and
skip the index when the fallback fails too. -/
def sampleLoop (ops : RngOps σ) (dObj : Domain) (domainName : String) :
    ℕ → ℕ → σ → List Policy × σ
  | 0, _, rng => ([], rng)
  | c + 1, i, rng =>
    let g := generateRandomPolicy ops dObj domainName i rng
    let res := RuleEnforcer.enforcePolicy dObj g.1
    match res.success, res.policy with
    | true, some q =>
      let rest := sampleLoop ops dObj domainName c (i + 1) g.2
      (q :: rest.1, rest.2)
    | _, _ =>
      let g₂ := generateSafePolicy ops dObj domainName i g.2
      let res₂ := RuleEnforcer.enforcePolicy dObj g₂.1
      match res₂.success, res₂.policy with
      | true, some q =>
        let rest := sampleLoop ops dObj domainName c (i + 1) g₂.2
        (q :: rest.1, rest.2)
      | _, _ => sampleLoop ops dObj domainName c (i + 1) g₂.2

/-- `PolicySampler.sample`: resolve the domain (raising `ValueError` for an
unknown name) and run the candidate loop. -/
def PolicySampler.sample (ops : RngOps σ) (rng : σ) (domainName : String)
    (n : ℕ) : Except PyError (List Policy × σ) :=
  match getDomain? domainName with
  | none => .error .valueError
  | some dObj => .ok (sampleLoop ops dObj domainName n 0 rng)

/-- The clone both `mutate` and `crossover` build:
`Transform(name=t.name, probability=t.probability, parameters=dict(...))`,
which resets `category` and `magnitude` to the constructor defaults. -/
def cloneTransform (t : Transform) : Transform :=
  { name := t.name, probability := t.probability, parameters := t.parameters }

/-- The per-transform probability-perturbation loop of
`PolicySampler.mutate` (one `random()` draw per transform; on success one
`uniform(-0.2, 0.2)` draw and a clamp to `[0.1, 1.0]`). -/
def mutateProbs (ops : RngOps σ) (strength : ℚ) :
    σ → List Transform → List Transform × σ
  | rng, [] => ([], rng)
  | rng, t :: ts =>
    let pr := ops.random rng
    let step : Transform × σ :=
      if pr.1 < strength then
        let pu := ops.uniform (-(1/5)) (1/5) pr.2
        ({ t with probability := max (1/10) (min 1 (t.probability + pu.1)) }, pu.2)
      else (t, pr.2)
    let rest := mutateProbs ops strength step.2 ts
    (step.1 :: rest.1, rest.2)

/-- The body of `PolicySampler.mutate` after the domain lookup succeeded. -/
def mutateCore (ops : RngOps σ) (dObj : Domain) (p : Policy) (strength : ℚ)
    (rng : σ) : Policy × σ :=
  let cloned := p.transforms.map cloneTransform
  let s1 := mutateProbs ops strength rng cloned
  let pr2 := ops.random s1.2
  let s2 : List Transform × σ :=
    if pr2.1 < strength ∧ s1.1.length < 10 then
      let valid := transformPool.filter (fun n =>
        n ∉ dObj.forbiddenTransforms ∧ n ∉ s1.1.map (·.name))
      if valid.isEmpty then (s1.1, pr2.2)
      else
        let pi := ops.choiceIdx valid.length pr2.2
        let newName := valid.getD pi.1 ""
        let pu := ops.uniform (3/10) (3/5) pi.2
        let pp := getRandomParams ops newName pu.2
        (s1.1 ++ [{ name := newName, probability := pyRound pu.1 2, parameters := pp.1 }], pp.2)
    else (s1.1, pr2.2)
  let pr3 := ops.random s2.2
  let s3 : List Transform × σ :=
    if pr3.1 < strength * (1/2) ∧ 2 < s2.1.length then
      let pe := ops.randrange s2.1.length pr3.2
      (s2.1.eraseIdx pe.1, pe.2)
    else (s2.1, pr3.2)
  ({ name := p.name ++ "_mutated", domain := p.domain, transforms := s3.1 }, s3.2)

/-- `PolicySampler.mutate`: `get_domain(policy.domain)` (raising for an
unknown name), then clone, perturb probabilities, maybe add one valid
transform, maybe remove one. -/
def PolicySampler.mutate (ops : RngOps σ) (rng : σ) (p : Policy)
    (strength : ℚ) : Except PyError (Policy × σ) :=
  match getDomain? p.domain with
  | none => .error .valueError
  | some dObj => .ok (mutateCore ops dObj p strength rng)

/-- Insert-or-replace on the association-list model of a Python dict
(replacement keeps the key's original position). -/
def upsert (acc : List (String × Transform)) (k : String) (v : Transform) :
    List (String × Transform) :=
  if (acc.find? (fun e => e.1 = k)).isSome then
    acc.map (fun e => if e.1 = k then (k, v) else e)
  else acc ++ [(k, v)]

/-- The second-parent loop of `PolicySampler.crossover`: a name not yet
present is inserted; a present name is replaced with probability 1/2 (one
`random()` draw, consumed only when the name is present). -/
def crossP2 (ops : RngOps σ) :
    σ → List (String × Transform) → List Transform → List (String × Transform) × σ
  | rng, acc, [] => (acc, rng)
  | rng, acc, t :: ts =>
    if (acc.find? (fun e => e.1 = t.name)).isNone then
      crossP2 ops rng (acc ++ [(t.name, t)]) ts
    else
      let (r, rng₁) := ops.random rng
      if 1/2 < r then crossP2 ops rng₁ (upsert acc t.name t) ts
      else crossP2 ops rng₁ acc ts

/-- The body of `PolicySampler.crossover` after the domain lookup
succeeded: union the parents' transforms by name, draw a subset size in
`[min(3,n), min(8,n)]`, and clone the selected transforms. -/
def crossoverCore (ops : RngOps σ) (p1 p2 : Policy) (rng : σ) : Policy × σ :=
  let base := p1.transforms.foldl (fun acc t => upsert acc t.name t) []
  let (allT, rng₁) := crossP2 ops rng base p2.transforms
  let transformList := allT.map (·.2)
  let (nSel, rng₂) :=
    ops.randint (min 3 transformList.length : ℕ) (min 8 transformList.length : ℕ) rng₁
  let (idxs, rng₃) := ops.sampleIdxs transformList.length nSel.toNat rng₂
  let children := (idxs.map (fun i => transformList.getD i default)).map cloneTransform
  ({ name := p1.domain ++ "_crossover_child", domain := p1.domain
     transforms := children }, rng₃)

/-- `PolicySampler.crossover` (the source resolves `get_domain(domain)` for
the first parent's domain, raising for an unknown name, and otherwise never
uses the domain object). -/
def PolicySampler.crossover (ops : RngOps σ) (rng : σ) (p1 p2 : Policy) :
    Except PyError (Policy × σ) :=
  match getDomain? p1.domain with
  | none => .error .valueError
  | some _ => .ok (crossoverCore ops p1 p2 rng)

/-! ## Evolutionary optimizer (src/augmentai/search/optimizer.py) -/

/-- `OptimizerConfig` with its defaults (`generations` and `mutation_rate`
are configuration fields the `search` loop never reads). -/
structure OptimizerConfig where
  populationSize : ℕ := 20
  generations : ℕ := 10
  eliteFraction : ℚ := 1/5
  mutationRate : ℚ := 1/2
  mutationStrength : ℚ := 3/10
  crossoverRate : ℚ := 3/10
  patience : ℕ := 3
  seed : ℤ := 42
deriving DecidableEq, Repr

/-- `PolicyOptimizer.__init__` state: the config and the sampler's single
seeded generator (`PolicySampler(seed=config.seed)`). -/
structure PolicyOptimizer (σ : Type) where
  config : OptimizerConfig
  rng : σ

/-- Construct a `PolicyOptimizer` from a config, seeding the sampler's
generator from `config.seed`. -/
def PolicyOptimizer.init (ops : RngOps σ) (cfg : OptimizerConfig) :
    PolicyOptimizer σ :=
  { config := cfg, rng := ops.mkRng cfg.seed }

/-- `GenerationStats` of search/result.py.  The source appends
`stats.to_dict()` to the history before the breeding loop increments the
`mutations`/`crossovers` counters, so the recorded counters are always 0. -/
structure GenerationStats where
  generation : ℕ
  bestScore : ℚ
  avgScore : ℚ
  worstScore : ℚ
  populationSize : ℕ
  mutations : ℕ := 0
  crossovers : ℕ := 0
deriving DecidableEq, Repr

/-- `SearchResult` of search/result.py (`search_time` and `timestamp`
omitted: wall clock). -/
structure SearchResult where
  bestPolicy : Policy
  bestScore : ℚ
  domain : String
  budgetUsed : ℕ
  history : List GenerationStats := []
  allCandidates : List (Policy × ℚ) := []
  seed : ℤ := 42
deriving DecidableEq, Repr

/-- Python's stable `list.sort(key=score, reverse=True)`.  A stable sort's
output is uniquely determined by the comparator, so insertion sort with
"earlier wins ties" reproduces CPython's Timsort exactly. -/
def sortDesc (l : List (Policy × ℚ)) : List (Policy × ℚ) :=
  l.insertionSort (fun a b => b.2 ≤ a.2)

/-- The mutable state of the evolutionary loop (`best_ever = none` models
the initial `-float("inf")`). -/
structure LoopState (σ : Type) where
  genIdx : ℕ
  population : List Policy
  allCands : List (Policy × ℚ)
  history : List GenerationStats
  bestEver : Option ℚ
  noImp : ℕ
  evals : ℕ
  rng : σ

/-- The breeding `while` loop of `PolicyOptimizer.search`: fill the next
population up to `popSize` with crossover children (when at least two
elites and `random() < crossover_rate`) or mutated elites, stopping early
once the budget is reached.  `fuel` bounds the iterations; the caller
passes `popSize - acc.length`, which is exact since every iteration
appends one child. -/
def breedLoop (ops : RngOps σ) (cfg : OptimizerConfig) (elite : List Policy)
    (evals budget popSize : ℕ) :
    ℕ → σ → List Policy → Except PyError (List Policy × σ)
  | 0, rng, acc => .ok (acc, rng)
  | fuel + 1, rng, acc =>
    if acc.length < popSize then
      if budget ≤ evals then .ok (acc, rng)
      else
        let pr := ops.random rng
        if 2 ≤ elite.length ∧ pr.1 < cfg.crossoverRate then
          let ps := ops.sampleIdxs elite.length 2 pr.2
          let par1 := elite.getD (ps.1.getD 0 0) default
          let par2 := elite.getD (ps.1.getD 1 0) default
          match PolicySampler.crossover ops ps.2 par1 par2 with
          | .error e => .error e
          | .ok cr =>
            breedLoop ops cfg elite evals budget popSize fuel cr.2 (acc ++ [cr.1])
        else
          let pc := ops.choiceIdx elite.length pr.2
          let parent := elite.getD pc.1 default
          match PolicySampler.mutate ops pc.2 parent cfg.mutationStrength with
          | .error e => .error e
          | .ok cr =>
            breedLoop ops cfg elite evals budget popSize fuel cr.2 (acc ++ [cr.1])
    else .ok (acc, rng)

/-- The per-generation candidate pairs: `zip(population, results)` where
the results are the evaluator's scores. -/
def genZip (f : String → Policy → ℚ) (domainName : String) (pop : List Policy) :
    List (Policy × ℚ) :=
  pop.zip (pop.map (f domainName))

/-- The improvement check (`gen_best > best_score_ever` with `-inf`
initial value) and the no-improvement counter update. -/
def impUpdate (bestEver : Option ℚ) (noImp : ℕ) (genBest : ℚ) : Option ℚ × ℕ :=
  match bestEver with
  | none => (some genBest, 0)
  | some b => if b < genBest then (some genBest, 0) else (some b, noImp + 1)

/-- The recorded `GenerationStats` snapshot (taken before breeding, so the
mutation/crossover counters are still 0). -/
def statsOf (genIdx popLen : ℕ) (sorted : List (Policy × ℚ)) (genBest : ℚ) :
    GenerationStats :=
  { generation := genIdx, bestScore := genBest
    avgScore := (sorted.map (·.2)).sum / ((sorted.map (·.2)).length : ℚ)
    worstScore := (sorted.map (·.2)).getLastD genBest
    populationSize := popLen }

/-- The elite selection: `scored_pop[:max(2, int(len * elite_fraction))]`
projected to policies. -/
def eliteOf (cfg : OptimizerConfig) (popLen : ℕ)
    (sorted : List (Policy × ℚ)) : List Policy :=
  (sorted.take (max 2 (pyTrunc ((popLen : ℚ) * cfg.eliteFraction)).toNat)).map (·.1)

/-- The `for gen in range(max_gens)` loop of `PolicyOptimizer.search`:
evaluate the population, record candidates and generation statistics,
update the best-ever score and the early-stopping counter, then select the
elite and breed the next population.  `scores[0]` on an empty population is
the source's `IndexError`. -/
def genLoop (ops : RngOps σ) (f : String → Policy → ℚ) (cfg : OptimizerConfig)
    (domainName : String) (budget popSize : ℕ) :
    ℕ → LoopState σ → Except PyError (LoopState σ)
  | 0, st => .ok st
  | g + 1, st =>
    if budget ≤ st.evals then .ok st
    else
      match sortDesc (genZip f domainName st.population) with
      | [] => .error .indexError
      | top :: rest =>
        if cfg.patience ≤ (impUpdate st.bestEver st.noImp top.2).2 then
          .ok { st with
                allCands := st.allCands ++ genZip f domainName st.population
                history := st.history ++ [statsOf st.genIdx st.population.length (top :: rest) top.2]
                bestEver := (impUpdate st.bestEver st.noImp top.2).1
                noImp := (impUpdate st.bestEver st.noImp top.2).2
                evals := st.evals + st.population.length }
        else
          match breedLoop ops cfg (eliteOf cfg st.population.length (top :: rest))
              (st.evals + st.population.length) budget popSize
              (popSize - (eliteOf cfg st.population.length (top :: rest)).length)
              st.rng (eliteOf cfg st.population.length (top :: rest)) with
          | .error e => .error e
          | .ok next =>
            genLoop ops f cfg domainName budget popSize g
              { genIdx := st.genIdx + 1, population := next.1
                allCands := st.allCands ++ genZip f domainName st.population
                history := st.history ++ [statsOf st.genIdx st.population.length (top :: rest) top.2]
                bestEver := (impUpdate st.bestEver st.noImp top.2).1
                noImp := (impUpdate st.bestEver st.noImp top.2).2
                evals := st.evals + st.population.length, rng := next.2 }

/-- `PolicyOptimizer.search` up to (excluding) the final best-candidate
selection: budget-derived sizing (`pop_size = min(population_size,
budget // 2)`; `budget // 0` is Python's `ZeroDivisionError`), the initial
sampling and the evolutionary loop.  `f` is the score the
`PolicyEvaluator` built for the domain returns per policy. -/
def searchStateCore (ops : RngOps σ) (f : String → Policy → ℚ)
    (opt : PolicyOptimizer σ) (domainName : String) (budget : ℕ) :
    Except PyError (LoopState σ) :=
  let popSize := min opt.config.populationSize (budget / 2)
  if popSize = 0 then .error .divisionByZero
  else
    let maxGens := budget / popSize
    match PolicySampler.sample ops opt.rng domainName popSize with
    | .error e => .error e
    | .ok pr =>
      genLoop ops f opt.config domainName budget popSize maxGens
        { genIdx := 0, population := pr.1, allCands := [], history := []
          bestEver := none, noImp := 0, evals := 0, rng := pr.2 }

/-- `PolicyOptimizer.search`: run the loop, then sort every evaluated
candidate by score (stable, descending) and return the head
(`all_candidates[0]` on an empty list is the source's `IndexError`),
keeping the top 20 candidates. -/
def PolicyOptimizer.search (ops : RngOps σ) (f : String → Policy → ℚ)
    (opt : PolicyOptimizer σ) (domainName : String) (budget : ℕ) :
    Except PyError SearchResult :=
  match searchStateCore ops f opt domainName budget with
  | .error e => .error e
  | .ok st =>
    match sortDesc st.allCands with
    | [] => .error .indexError
    | top :: rest =>
      .ok { bestPolicy := top.1, bestScore := top.2, domain := domainName
            budgetUsed := st.evals, history := st.history
            allCandidates := (top :: rest).take 20
            seed := opt.config.seed }

/-- Specification-side definition (from the claim's words, to be compared
with the implementation): the first-seen maximum-score pair of a candidate
list - the element returned when ties are broken by evaluation order. -/
def specFirstSeenMax : List (Policy × ℚ) → Option (Policy × ℚ)
  | [] => none
  | x :: xs =>
    match specFirstSeenMax xs with
    | none => some x
    | some y => if x.2 < y.2 then some y else some x

/-! ## Policy evaluator (src/augmentai/search/evaluator.py).
The score mixes rational arithmetic with `math.exp` / `math.sqrt`, so the
metric values live in `ℝ` (hence the `noncomputable` definitions). -/

/-- `PolicyEvaluator.TRANSFORM_CATEGORIES` in the source's dict order. -/
def evalCategoryTable : List (String × List String) :=
  [("geometric", ["HorizontalFlip", "VerticalFlip", "Rotate", "ShiftScaleRotate",
                  "Perspective", "Affine", "RandomCrop", "RandomScale"]),
   ("color", ["RandomBrightnessContrast", "ColorJitter", "HueSaturationValue",
              "RandomGamma", "RandomToneCurve", "CLAHE", "Equalize"]),
   ("blur", ["GaussianBlur", "MotionBlur", "MedianBlur", "Blur"]),
   ("noise", ["GaussNoise", "ISONoise", "MultiplicativeNoise"]),
   ("dropout", ["CoarseDropout", "Cutout", "GridDropout"]),
   ("distortion", ["ElasticTransform", "GridDistortion", "OpticalDistortion"]),
   ("sharpness", ["Sharpen", "Emboss", "UnsharpMask"])]

/-- The set of category names used by a policy's transforms (first matching
category per transform, as in `_score_diversity`'s inner loop). -/
def categoriesUsed (p : Policy) : Finset String :=
  p.transforms.foldl (fun s t =>
    match (evalCategoryTable.find? (fun c => t.name ∈ c.2)).map (·.1) with
    | some cat => insert cat s
    | none => s) ∅

/-- `PolicyEvaluator._score_diversity`. -/
def scoreDiversity (p : Policy) : ℚ :=
  if p.transforms.isEmpty then 0
  else ((categoriesUsed p).card : ℚ) / (evalCategoryTable.length : ℚ)

/-- `PolicyEvaluator._score_coverage`: `exp(-(n-6)^2 / (2*3^2))`. -/
noncomputable def scoreCoverage (p : Policy) : ℝ :=
  Real.exp (-(((p.transforms.length : ℝ) - 6) ^ 2) / (2 * 3 ^ 2))

/-- Mean transform probability. -/
def avgProb (p : Policy) : ℚ :=
  (p.transforms.map (·.probability)).sum / (p.transforms.length : ℚ)

/-- `PolicyEvaluator._score_strength` (`avgProb p` is the source's local
`avg_prob`). -/
def scoreStrength (p : Policy) : ℚ :=
  if p.transforms.isEmpty then 0
  else
    if avgProb p < 1/5 then avgProb p / (1/5) * (1/2)
    else if 4/5 < avgProb p then 1 - (avgProb p - 4/5) / (1/5) * (1/2)
    else 7/10 + 3/10 * (1 - |avgProb p - 1/2| / (3/10))

/-- Population variance of the transform probabilities. -/
def varianceProbs (p : Policy) : ℚ :=
  let probs := p.transforms.map (·.probability)
  let mean := probs.sum / (probs.length : ℚ)
  (probs.map (fun x => (x - mean) ^ 2)).sum / (probs.length : ℚ)

/-- The local `std = math.sqrt(variance)` of `_score_balance`. -/
noncomputable def stdProbs (p : Policy) : ℝ :=
  Real.sqrt ((varianceProbs p : ℚ) : ℝ)

/-- `PolicyEvaluator._score_balance`. -/
noncomputable def scoreBalance (p : Policy) : ℝ :=
  if p.transforms.length < 2 then 1/2
  else
    if stdProbs p < 1/20 then 1/2 + stdProbs p / (1/20) * (3/10)
    else if 3/10 < stdProbs p then max (3/10) (1 - (stdProbs p - 3/10) / (1/5))
    else 4/5 + 1/5 * (1 - |stdProbs p - 3/20| / (3/20))

/-- The domain-dependent part of `_score_domain_fit`: neutral 0.5 when the
registry lookup raised (`except ValueError`), otherwise
`0.5 + 0.5 * recommended_count / n` (the source also counts "risky"
transforms but never uses the count). -/
def domainFitScoreOf (o : Option Domain) (p : Policy) : ℚ :=
  match o with
  | none => 1/2
  | some dObj =>
    1/2 + 1/2 * ((p.transforms.countP
      (fun t => t.name ∈ dObj.recommendedTransforms) : ℚ) / (p.transforms.length : ℚ))

/-- `PolicyEvaluator._score_domain_fit`. -/
def scoreDomainFit (domain : Option String) (p : Policy) : ℚ :=
  match domain with
  | none => 1/2
  | some d =>
    if p.transforms.isEmpty then 1/2
    else domainFitScoreOf (getDomain? d) p

/-- The five metric weights (Python dict with fixed keys). -/
structure EvalWeights where
  diversity : ℚ
  coverage : ℚ
  strength : ℚ
  balance : ℚ
  domainFit : ℚ
deriving DecidableEq, Repr

/-- `PolicyEvaluator.DEFAULT_WEIGHTS`. -/
def defaultWeights : EvalWeights :=
  { diversity := 3/10, coverage := 1/4, strength := 1/5
    balance := 3/20, domainFit := 1/10 }

/-- The `__init__` normalisation: divide every weight by the total. -/
def normalizeWeights (w : EvalWeights) : EvalWeights :=
  let total := w.diversity + w.coverage + w.strength + w.balance + w.domainFit
  { diversity := w.diversity / total, coverage := w.coverage / total
    strength := w.strength / total, balance := w.balance / total
    domainFit := w.domainFit / total }

/-- `weights.get(metric, 0)`. -/
def weightGet (w : EvalWeights) (s : String) : ℚ :=
  if s = "diversity" then w.diversity
  else if s = "coverage" then w.coverage
  else if s = "strength" then w.strength
  else if s = "balance" then w.balance
  else if s = "domain_fit" then w.domainFit
  else 0

/-- `PolicyEvaluator` state after `__init__` (weights already
normalised). -/
structure PolicyEvaluator where
  weights : EvalWeights
  domain : Option String := none
  customEvalFn : Option (Policy → ℝ) := none

/-- `PolicyEvaluator.__init__`: default weights when none are given, then
normalise. -/
def PolicyEvaluator.init (weights : Option EvalWeights) (domain : Option String)
    (customEvalFn : Option (Policy → ℝ)) : PolicyEvaluator :=
  { weights := normalizeWeights (weights.getD defaultWeights)
    domain := domain, customEvalFn := customEvalFn }

/-- `EvaluationResult` of search/evaluator.py. -/
structure EvaluationResult where
  policyName : String
  score : ℝ
  metrics : List (String × ℝ)

/-- `PolicyEvaluator.evaluate`: the five metrics, their weighted sum, and
the optional 50/50 blend with a caller-supplied evaluation function. -/
noncomputable def PolicyEvaluator.evaluate (e : PolicyEvaluator) (p : Policy) :
    EvaluationResult :=
  let ms : List (String × ℝ) :=
    [("diversity", ((scoreDiversity p : ℚ) : ℝ)),
     ("coverage", scoreCoverage p),
     ("strength", ((scoreStrength p : ℚ) : ℝ)),
     ("balance", scoreBalance p),
     ("domain_fit", ((scoreDomainFit e.domain p : ℚ) : ℝ))]
  let base := (ms.map (fun m => ((weightGet e.weights m.1 : ℚ) : ℝ) * m.2)).sum
  match e.customEvalFn with
  | none => { policyName := p.name, score := base, metrics := ms }
  | some fn =>
    { policyName := p.name, score := 1/2 * base + 1/2 * fn p
      metrics := ms ++ [("custom", fn p)] }

/-! ## Statement helpers and concrete fixtures -/

/-- Whether `search`'s initial sampling (seeded from the config, sized
`min(population_size, budget // 2)`) yields at least one candidate. -/
def initialSampleNonempty (ops : RngOps σ) (cfg : OptimizerConfig)
    (domainName : String) (budget : ℕ) : Bool :=
  match PolicySampler.sample ops (ops.mkRng cfg.seed) domainName
      (min cfg.populationSize (budget / 2)) with
  | .ok pr => !pr.1.isEmpty
  | .error _ => false

/-- Specification-side definition (from the claim's words): the transform
names of a domain's constraints at one level, as a set. -/
def specLevelNames (d : Domain) (lvl : ConstraintLevel) : Finset String :=
  ((d.constraints.filter (fun c => c.level = lvl)).map (·.transformName)).toFinset

/-- The medical-domain scenario input `Rotate(limit=200)`. -/
def rotate200 : Transform :=
  { name := "Rotate", probability := 1, parameters := [("limit", .num 200)] }

/-- A candidate policy containing only `Rotate(limit=200)`. -/
def polRotate200 : Policy :=
  { name := "candidate", domain := "medical", transforms := [rotate200] }

/-- Scenario-A-style fixture: `HorizontalFlip` (allowed in the medical
domain) next to `ElasticTransform` (forbidden there). -/
def witHFlip : Transform := { name := "HorizontalFlip", probability := 1, category := .flip }

/-- The forbidden companion of `witHFlip`. -/
def witElastic : Transform :=
  { name := "ElasticTransform", probability := 1, category := .distortion }

/-- The fixture policy holding `witHFlip` and `witElastic`. -/
def witPolicyA : Policy :=
  { name := "test_policy", domain := "medical", transforms := [witHFlip, witElastic] }

/-- A policy whose transform carries a non-default category, magnitude and
policy metadata (exercises what `mutate`'s clone drops). -/
def c8Policy : Policy :=
  { name := "p", domain := "natural"
    transforms := [{ name := "HorizontalFlip", probability := 1, parameters := []
                     category := .flip, magnitude := some 5 }]
    description := "hand-written", metadata := [("k", "v")] }

/-! ## Helper lemmas: validation -/

theorem foldr_append_eq_nil {α β : Type} (f : α → List β) (l : List α) :
    l.foldr (fun c acc => f c ++ acc) [] = [] ↔ ∀ c ∈ l, f c = [] := by
  induction l with
  | nil => simp
  | cons a t ih => simp [List.append_eq_nil, ih]

theorem map_eq_self_of {α : Type} {f : α → α} {l : List α}
    (h : ∀ a ∈ l, f a = a) : l.map f = l := by
  induction l with
  | nil => rfl
  | cons a t ih =>
    simp only [List.map_cons, h a (List.mem_cons_self a t)]
    rw [ih (fun b hb => h b (List.mem_cons_of_mem a hb))]

/-- The error list of `validate_transform`, decomposed into its three
sections. -/
theorem validateTransform_errors (d : Domain) (t : Transform) :
    (d.validateTransform t).errors =
      (if t.category ∈ d.forbiddenCategories then
        [VError.categoryForbidden t.name t.category] else [])
      ++ (if t.name ∈ d.forbiddenTransforms then [VError.nameForbidden t.name] else [])
      ++ d.constraints.foldr (fun c acc => constraintParamErrors c t ++ acc) [] := rfl

/-- A forbidden-named transform always fails validation. -/
theorem errors_ne_nil_of_forbidden {d : Domain} {t : Transform}
    (h : t.name ∈ d.forbiddenTransforms) :
    (d.validateTransform t).errors ≠ [] := by
  rw [validateTransform_errors]
  simp [h, List.append_eq_nil]

/-- An error-free transform satisfies every constraint's parameter
limits. -/
theorem constraintParamErrors_eq_nil {d : Domain} {t : Transform}
    (h : (d.validateTransform t).errors = []) :
    ∀ c ∈ d.constraints, constraintParamErrors c t = [] := by
  rw [validateTransform_errors] at h
  rcases List.append_eq_nil.mp h with ⟨-, h3⟩
  exact (foldr_append_eq_nil _ _).mp h3

theorem clampQ_eq_self {mn mx v : ℚ} (h1 : mn ≤ v) (h2 : v ≤ mx) :
    clampQ mn mx v = v := by
  unfold clampQ
  rw [min_eq_right h2, max_eq_right h1]

/-- A parameter value that produces no out-of-range error is unchanged by
clamping. -/
theorem clampPValue_eq_self {pn : String} {mn mx : ℚ} {v : PValue}
    (h : pvalueErrors pn mn mx v = []) : clampPValue mn mx v = v := by
  cases v with
  | num q =>
    by_cases hq : mn ≤ q ∧ q ≤ mx
    · simp [clampPValue, clampQ_eq_self hq.1 hq.2]
    · simp [pvalueErrors, hq] at h
  | tup l =>
    have hall : ∀ q ∈ l, (if mn ≤ q ∧ q ≤ mx then ([] : List VError)
        else [VError.paramOutOfRange pn q mn mx]) = [] :=
      (foldr_append_eq_nil _ l).mp h
    simp only [clampPValue, PValue.tup.injEq]
    apply map_eq_self_of
    intro q hq
    have := hall q hq
    by_cases hb : mn ≤ q ∧ q ≤ mx
    · exact clampQ_eq_self hb.1 hb.2
    · simp [hb] at this
  | str s => rfl

/-- With unique parameter keys, membership determines `find?`. -/
theorem find?_eq_of_nodup_keys {β : Type} {l : List (String × β)}
    (hnd : (l.map (·.1)).Nodup) {k : String} {v : β} (hm : (k, v) ∈ l) :
    l.find? (fun e => e.1 = k) = some (k, v) := by
  induction l with
  | nil => cases hm
  | cons a t ih =>
    rw [List.map_cons, List.nodup_cons] at hnd
    rcases List.mem_cons.mp hm with he | ht
    · subst he
      simp [List.find?]
    · have hak : ¬(a.1 = k) := by
        intro hak
        exact hnd.1 (hak ▸ (List.mem_map.mpr ⟨(k, v), ht, rfl⟩))
      rw [List.find?_cons_of_neg _ (by simpa using hak)]
      exact ih hnd.2 ht

/-- An error-free matching constraint clamps every parameter to itself. -/
theorem clampParams_eq_self {c : DomainConstraint} {t : Transform}
    (hnd : (t.parameters.map (·.1)).Nodup)
    (hc : c.transformName = t.name ∧ c.hasLimits)
    (h : constraintParamErrors c t = []) :
    clampParams c.limits t.parameters = t.parameters := by
  unfold constraintParamErrors at h
  rw [if_pos hc] at h
  have hall := (foldr_append_eq_nil _ c.limits).mp h
  apply map_eq_self_of
  intro kv hkv
  unfold lookupLimit
  cases hf : c.limits.find? (fun e => e.1 = kv.1) with
  | none => rfl
  | some e =>
    have hmem : e ∈ c.limits := List.mem_of_find?_eq_some hf
    have hkey : e.1 = kv.1 := by
      have := List.find?_some hf
      simpa using this
    have hl := hall e hmem
    unfold lookupParam at hl
    rw [hkey, find?_eq_of_nodup_keys hnd (by exact hkv : (kv.1, kv.2) ∈ t.parameters)]
      at hl
    simp only [Option.map_some'] at hl ⊢
    have := clampPValue_eq_self (v := kv.2) hl
    rw [this]

/-- An error-free transform is returned unchanged by
`_adjust_parameters`. -/
theorem adjustLoop_eq_self {t : Transform}
    (hnd : (t.parameters.map (·.1)).Nodup) {cs : List DomainConstraint}
    (h : ∀ c ∈ cs, constraintParamErrors c t = []) :
    adjustLoop t cs = t := by
  induction cs with
  | nil => rfl
  | cons c cs ih =>
    unfold adjustLoop
    by_cases hc : c.transformName = t.name ∧ c.hasLimits = true
    · rw [if_pos hc]
      have heq := clampParams_eq_self hnd hc (h c (List.mem_cons_self c cs))
      simp only [heq, ne_eq, not_true_eq_false, if_false]
      exact ih (fun c' hc' => h c' (List.mem_cons_of_mem c hc'))
    · rw [if_neg hc]
      exact ih (fun c' hc' => h c' (List.mem_cons_of_mem c hc'))

/-- `_adjust_parameters` never changes the transform's name. -/
theorem adjustLoop_name (t : Transform) (cs : List DomainConstraint) :
    (adjustLoop t cs).name = t.name := by
  induction cs with
  | nil => rfl
  | cons c cs ih =>
    unfold adjustLoop
    by_cases hc : c.transformName = t.name ∧ c.hasLimits = true
    · rw [if_pos hc]
      by_cases hm : clampParams c.limits t.parameters ≠ t.parameters
      · rw [if_pos hm]
      · rw [if_neg hm]; exact ih
    · rw [if_neg hc]; exact ih

/-- Every transform the strict per-transform loop keeps comes from an
error-free input transform via `_adjust_parameters`. -/
theorem mem_validated_strict {d : Domain} {ts : List Transform} {t' : Transform}
    (h : t' ∈ (processTransforms { domain := d, strict := true } ts).validated) :
    ∃ t ∈ ts, (d.validateTransform t).errors = [] ∧
      t' = adjustLoop t d.constraints := by
  induction ts with
  | nil => cases h
  | cons t ts ih =>
    unfold processTransforms at h
    by_cases he : (d.validateTransform t).errors.isEmpty = true
    · rw [if_pos he] at h
      simp only [List.mem_cons] at h
      rcases h with h | h
      · exact ⟨t, List.mem_cons_self t ts, List.isEmpty_iff.mp he, h⟩
      · obtain ⟨t₀, hm, he₀, hadj⟩ := ih h
        exact ⟨t₀, List.mem_cons_of_mem t hm, he₀, hadj⟩
    · rw [if_neg he] at h
      simp only [if_pos rfl] at h
      obtain ⟨t₀, hm, he₀, hadj⟩ := ih h
      exact ⟨t₀, List.mem_cons_of_mem t hm, he₀, hadj⟩

/-- On an all-valid, well-keyed transform list the strict loop keeps
everything unchanged and removes/modifies nothing. -/
theorem processTransforms_all_ok {d : Domain} {ts : List Transform}
    (hok : ∀ t ∈ ts, (d.validateTransform t).errors = [])
    (hnd : ∀ t ∈ ts, (t.parameters.map (·.1)).Nodup) :
    (processTransforms { domain := d, strict := true } ts).validated = ts ∧
    (processTransforms { domain := d, strict := true } ts).removed = [] ∧
    (processTransforms { domain := d, strict := true } ts).modified = [] := by
  induction ts with
  | nil => exact ⟨rfl, rfl, rfl⟩
  | cons t ts ih =>
    have he := hok t (List.mem_cons_self t ts)
    have hadj : adjustLoop t d.constraints = t :=
      adjustLoop_eq_self (hnd t (List.mem_cons_self t ts))
        (constraintParamErrors_eq_nil he)
    obtain ⟨ih1, ih2, ih3⟩ := ih (fun x hx => hok x (List.mem_cons_of_mem t hx))
      (fun x hx => hnd x (List.mem_cons_of_mem t hx))
    unfold processTransforms
    rw [if_pos (List.isEmpty_iff.mpr he)]
    refine ⟨?_, ?_, ?_⟩
    · show adjustLoop t d.constraints :: _ = t :: ts
      rw [hadj, ih1]
    · exact ih2
    · show (if adjustLoop t d.constraints ≠ t then [(t, adjustLoop t d.constraints)]
        else []) ++ _ = []
      rw [hadj]
      simp [ih3]

/-- The strict loop's survivors are exactly the error-free transforms, in
order and unchanged. -/
theorem validated_strict_filter {d : Domain} {ts : List Transform}
    (hnd : ∀ t ∈ ts, (t.parameters.map (·.1)).Nodup) :
    (processTransforms { domain := d, strict := true } ts).validated =
      ts.filter (fun t => (d.validateTransform t).errors.isEmpty) := by
  induction ts with
  | nil => rfl
  | cons t ts ih =>
    unfold processTransforms
    by_cases he : (d.validateTransform t).errors.isEmpty = true
    · rw [if_pos he]
      have hadj : adjustLoop t d.constraints = t :=
        adjustLoop_eq_self (hnd t (List.mem_cons_self t ts))
          (constraintParamErrors_eq_nil (List.isEmpty_iff.mp he))
      have := ih (fun x hx => hnd x (List.mem_cons_of_mem t hx))
      show adjustLoop t d.constraints :: _ = _
      rw [hadj, this, List.filter_cons]
      simp [he]
    · rw [if_neg he]
      have := ih (fun x hx => hnd x (List.mem_cons_of_mem t hx))
      simp [this, List.filter_cons, he]

/-! ## Claims -/

/-- C1: in strict mode, no transform of the validated policy returned by
`SafetyValidator.validate` (the engine behind `RuleEnforcer.enforce_policy`)
carries a name in `domain.forbidden_transforms`, for every domain and every
input policy. -/
theorem c1_strict_no_forbidden (d : Domain) (p : Policy) (t : Transform)
    (hmem : t ∈ (SafetyValidator.validate { domain := d, strict := true } p).policy.transforms) :
    t.name ∉ d.forbiddenTransforms := by
  have hmem' : t ∈ (processTransforms { domain := d, strict := true } p.transforms).validated :=
    hmem
  obtain ⟨t₀, -, herr, rfl⟩ := mem_validated_strict hmem'
  intro hf
  rw [adjustLoop_name] at hf
  exact errors_ne_nil_of_forbidden hf herr

theorem c1_witness :
    witHFlip ∈ (SafetyValidator.validate { domain := medicalDomain, strict := true }
        witPolicyA).policy.transforms ∧
      witHFlip.name ∉ medicalDomain.forbiddenTransforms :=
  ⟨by with_unfolding_all decide,
    c1_strict_no_forbidden medicalDomain witPolicyA witHFlip (by with_unfolding_all decide)⟩

/-- C2: strict enforcement is idempotent - re-validating the policy a
first strict validation produced returns the same transform list (same
order and values) with empty `removed_transforms` and
`modified_transforms`.  The hypothesis states that each transform's
parameter dict has unique keys, which Python dicts guarantee by
construction. -/
theorem c2_enforce_idempotent (d : Domain) (p : Policy) (hnd : p.wfParams) :
    (SafetyValidator.validate { domain := d, strict := true }
        ((SafetyValidator.validate { domain := d, strict := true } p).policy)).policy.transforms =
      (SafetyValidator.validate { domain := d, strict := true } p).policy.transforms ∧
    (SafetyValidator.validate { domain := d, strict := true }
        ((SafetyValidator.validate { domain := d, strict := true } p).policy)).removedTransforms = [] ∧
    (SafetyValidator.validate { domain := d, strict := true }
        ((SafetyValidator.validate { domain := d, strict := true } p).policy)).modifiedTransforms = [] := by
  set v : SafetyValidator := { domain := d, strict := true } with hv
  have h1 : (v.validate p).policy.transforms =
      p.transforms.filter (fun t => (d.validateTransform t).errors.isEmpty) :=
    validated_strict_filter hnd
  have hsub : ∀ t ∈ (v.validate p).policy.transforms, t ∈ p.transforms := by
    intro t ht
    rw [h1] at ht
    exact List.mem_of_mem_filter ht
  have hok : ∀ t ∈ (v.validate p).policy.transforms,
      (d.validateTransform t).errors = [] := by
    intro t ht
    rw [h1] at ht
    exact List.isEmpty_iff.mp (by simpa using List.of_mem_filter ht)
  have hnd' : ∀ t ∈ (v.validate p).policy.transforms,
      (t.parameters.map (·.1)).Nodup := fun t ht => hnd t (hsub t ht)
  obtain ⟨ha, hb, hc⟩ := processTransforms_all_ok hok hnd'
  exact ⟨ha, hb, hc⟩

theorem c2_witness :
    witPolicyA.wfParams ∧
      ((SafetyValidator.validate { domain := medicalDomain, strict := true }
          ((SafetyValidator.validate { domain := medicalDomain, strict := true }
            witPolicyA).policy)).policy.transforms =
        (SafetyValidator.validate { domain := medicalDomain, strict := true }
          witPolicyA).policy.transforms ∧
      (SafetyValidator.validate { domain := medicalDomain, strict := true }
          ((SafetyValidator.validate { domain := medicalDomain, strict := true }
            witPolicyA).policy)).removedTransforms = [] ∧
      (SafetyValidator.validate { domain := medicalDomain, strict := true }
          ((SafetyValidator.validate { domain := medicalDomain, strict := true }
            witPolicyA).policy)).modifiedTransforms = []) :=
  ⟨by unfold Policy.wfParams; with_unfolding_all decide,
    c2_enforce_idempotent medicalDomain witPolicyA
      (by unfold Policy.wfParams; with_unfolding_all decide)⟩

/-- C3: what the code actually does with the medical domain's
`Rotate(limit=200)` under strict enforcement: `validate_transform` reports
the out-of-range parameter as an error, so strict `validate` removes the
transform before `_adjust_parameters` could clamp it - the returned policy
loses Rotate entirely and `modified_transforms` stays empty, contradicting
the documented clamp-to-15 behaviour. -/
theorem c3_rotate200_removed_not_clamped :
    (SafetyValidator.validate { domain := medicalDomain, strict := true }
        polRotate200).policy.transforms = [] ∧
    (SafetyValidator.validate { domain := medicalDomain, strict := true }
        polRotate200).removedTransforms = [rotate200] ∧
    (SafetyValidator.validate { domain := medicalDomain, strict := true }
        polRotate200).modifiedTransforms = [] := by
  with_unfolding_all decide

/-- C9 (amended): for all four registry domains the forbidden set equals
the FORBIDDEN-constraint names exactly; the RECOMMENDED-constraint names
are always a subset of `recommended_transforms`, with equality for the
natural and satellite domains - but not for medical and ocr, whose
`_setup` adds extra recommended names with no constraint. -/
theorem c9_derived_sets :
    (medicalDomain.forbiddenTransforms.toFinset = specLevelNames medicalDomain .forbidden ∧
     ocrDomain.forbiddenTransforms.toFinset = specLevelNames ocrDomain .forbidden ∧
     satelliteDomain.forbiddenTransforms.toFinset = specLevelNames satelliteDomain .forbidden ∧
     naturalDomain.forbiddenTransforms.toFinset = specLevelNames naturalDomain .forbidden) ∧
    (specLevelNames medicalDomain .recommended ⊆ medicalDomain.recommendedTransforms.toFinset ∧
     specLevelNames ocrDomain .recommended ⊆ ocrDomain.recommendedTransforms.toFinset ∧
     specLevelNames satelliteDomain .recommended ⊆ satelliteDomain.recommendedTransforms.toFinset ∧
     specLevelNames naturalDomain .recommended ⊆ naturalDomain.recommendedTransforms.toFinset) ∧
    (satelliteDomain.recommendedTransforms.toFinset = specLevelNames satelliteDomain .recommended ∧
     naturalDomain.recommendedTransforms.toFinset = specLevelNames naturalDomain .recommended) := by
  with_unfolding_all decide

/-- C9 counterexample: rebuilding the medical domain's
`recommended_transforms` from its constraint list does not reproduce it
(`HorizontalFlip`, `VerticalFlip` and `RandomRotate90` are added directly
with no RECOMMENDED constraint). -/
theorem c9_counterexample :
    medicalDomain.recommendedTransforms.toFinset ≠
      specLevelNames medicalDomain .recommended := by
  with_unfolding_all decide

/-- C10: for budgets below 2 (`budget // 2 == 0`), `search` computes
`pop_size = 0` and then `budget // pop_size` raises `ZeroDivisionError`
before any sampling or evaluation, for every config and domain. -/
theorem c10_zero_popsize_divides {σ : Type} (ops : RngOps σ)
    (f : String → Policy → ℚ) (cfg : OptimizerConfig) (domainName : String)
    (budget : ℕ) (hb : budget < 2) :
    PolicyOptimizer.search ops f (PolicyOptimizer.init ops cfg) domainName budget =
      .error .divisionByZero := by
  have h2 : budget / 2 = 0 := Nat.div_eq_of_lt hb
  unfold PolicyOptimizer.search searchStateCore
  rw [h2]
  simp

theorem c10_witness :
    PolicyOptimizer.search trivialRng (fun _ _ => 0)
        (PolicyOptimizer.init trivialRng {}) "medical" 0 = .error .divisionByZero :=
  c10_zero_popsize_divides trivialRng (fun _ _ => 0) {} "medical" 0 (by decide)

/-- C5: seeded determinism - two `PolicyOptimizer` instances constructed
from equal configs (seed 42) and run as `search("natural", budget=60)`
yield identical `best_score` and identical best-policy transform lists: in
the embedding every source of randomness is the sampler's single seeded
generator (`mkRng config.seed`), consumed in strict call order, so the
whole run is a function of the config. -/
theorem c5_seeded_determinism {σ : Type} (ops : RngOps σ)
    (f : String → Policy → ℚ) (cfg₁ cfg₂ : OptimizerConfig)
    (hseed : cfg₁.seed = 42) (heq : cfg₂ = cfg₁) :
    (PolicyOptimizer.search ops f (PolicyOptimizer.init ops cfg₁) "natural" 60).toOption.map
        (·.bestScore) =
      (PolicyOptimizer.search ops f (PolicyOptimizer.init ops cfg₂) "natural" 60).toOption.map
        (·.bestScore) ∧
    (PolicyOptimizer.search ops f (PolicyOptimizer.init ops cfg₁) "natural" 60).toOption.map
        (fun r => r.bestPolicy.transforms) =
      (PolicyOptimizer.search ops f (PolicyOptimizer.init ops cfg₂) "natural" 60).toOption.map
        (fun r => r.bestPolicy.transforms) := by
  subst heq
  exact ⟨rfl, rfl⟩

theorem c5_witness :
    (PolicyOptimizer.search trivialRng (fun _ _ => 0)
        (PolicyOptimizer.init trivialRng {}) "natural" 60).toOption.map
        (·.bestScore) =
      (PolicyOptimizer.search trivialRng (fun _ _ => 0)
        (PolicyOptimizer.init trivialRng {}) "natural" 60).toOption.map
        (·.bestScore) ∧
    (PolicyOptimizer.search trivialRng (fun _ _ => 0)
        (PolicyOptimizer.init trivialRng {}) "natural" 60).toOption.map
        (fun r => r.bestPolicy.transforms) =
      (PolicyOptimizer.search trivialRng (fun _ _ => 0)
        (PolicyOptimizer.init trivialRng {}) "natural" 60).toOption.map
        (fun r => r.bestPolicy.transforms) :=
  c5_seeded_determinism trivialRng (fun _ _ => 0) {} {} rfl rfl

/-! ### C8: mutate at strength 0 -/

/-- With a lawful generator, `random() < 0.0` never holds, so the
probability-perturbation loop at strength 0 changes nothing. -/
theorem mutateProbs_zero {σ : Type} {ops : RngOps σ} (hl : LawfulRng ops)
    (rng : σ) (ts : List Transform) : (mutateProbs ops 0 rng ts).1 = ts := by
  induction ts generalizing rng with
  | nil => rfl
  | cons t ts ih =>
    unfold mutateProbs
    have h : ¬((ops.random rng).1 < 0) := not_lt.mpr (hl.random_nonneg rng)
    simp only [if_neg h]
    simp [ih]

/-- `mutate`'s body at strength 0: the add and remove branches never fire,
leaving exactly the clones (with the `_mutated` name suffix and
constructor-default policy fields). -/
theorem mutateCore_zero {σ : Type} {ops : RngOps σ} (hl : LawfulRng ops)
    (dObj : Domain) (p : Policy) (rng : σ) :
    (mutateCore ops dObj p 0 rng).1 =
      { name := p.name ++ "_mutated", domain := p.domain
        transforms := p.transforms.map cloneTransform } := by
  have hr : ∀ s : σ, ¬((ops.random s).1 < 0) :=
    fun s => not_lt.mpr (hl.random_nonneg s)
  have hr2 : ∀ s : σ, ¬((ops.random s).1 < 0 * (1/2)) := by
    intro s
    rw [zero_mul]
    exact hr s
  simp only [mutateCore, hr, hr2, false_and, if_false, mutateProbs_zero hl]

/-- C8 (amended): `mutate(p, strength=0.0)` succeeds whenever `p.domain`
resolves, and returns a policy whose transforms keep the input's names,
probabilities and parameters in order - but whose `category` and
`magnitude` are reset to the constructor defaults (`OTHER` / `None`), and
whose policy-level `description`, `magnitude_bins`, `num_ops` and
`metadata` are reset too; the name gains the `_mutated` suffix. -/
theorem c8_mutate_zero_strength {σ : Type} (ops : RngOps σ) (hl : LawfulRng ops)
    (rng : σ) (p : Policy) (dObj : Domain)
    (hdom : getDomain? p.domain = some dObj) :
    ∃ p' rng', PolicySampler.mutate ops rng p 0 = .ok (p', rng') ∧
      p'.name = p.name ++ "_mutated" ∧
      p'.domain = p.domain ∧
      p'.transforms.map (·.name) = p.transforms.map (·.name) ∧
      p'.transforms.map (·.probability) = p.transforms.map (·.probability) ∧
      p'.transforms.map (·.parameters) = p.transforms.map (·.parameters) ∧
      p'.transforms.map (·.category) = p.transforms.map (fun _ => TransformCategory.other) ∧
      p'.transforms.map (·.magnitude) = p.transforms.map (fun _ => (none : Option ℤ)) ∧
      p'.description = "" ∧ p'.magnitudeBins = 10 ∧ p'.numOps = 2 ∧
      p'.metadata = [] := by
  have hcore := mutateCore_zero hl dObj p rng
  refine ⟨(mutateCore ops dObj p 0 rng).1, (mutateCore ops dObj p 0 rng).2, ?_,
    ?_, ?_, ?_, ?_, ?_, ?_, ?_, ?_, ?_, ?_, ?_⟩
  · unfold PolicySampler.mutate
    rw [hdom]
  all_goals
    simp [hcore, cloneTransform, List.map_map, Function.comp_def]

/-- C8 counterexample: the output of `mutate(p, strength=0.0)` is not
value-identical to the input - a transform's category is reset by the
clone (here `FLIP` becomes `OTHER`). -/
theorem c8_counterexample :
    (PolicySampler.mutate trivialRng () c8Policy 0).toOption.map
        (fun pr => pr.1.transforms.map (·.category)) ≠
      some (c8Policy.transforms.map (·.category)) := by
  with_unfolding_all decide

theorem c8_witness :
    LawfulRng trivialRng ∧ getDomain? c8Policy.domain = some naturalDomain ∧
      (∃ p' rng', PolicySampler.mutate trivialRng () c8Policy 0 = .ok (p', rng') ∧
        p'.name = c8Policy.name ++ "_mutated" ∧
        p'.domain = c8Policy.domain ∧
        p'.transforms.map (·.name) = c8Policy.transforms.map (·.name) ∧
        p'.transforms.map (·.probability) = c8Policy.transforms.map (·.probability) ∧
        p'.transforms.map (·.parameters) = c8Policy.transforms.map (·.parameters) ∧
        p'.transforms.map (·.category) =
          c8Policy.transforms.map (fun _ => TransformCategory.other) ∧
        p'.transforms.map (·.magnitude) =
          c8Policy.transforms.map (fun _ => (none : Option ℤ)) ∧
        p'.description = "" ∧ p'.magnitudeBins = 10 ∧ p'.numOps = 2 ∧
        p'.metadata = []) :=
  ⟨trivialRng_lawful, by with_unfolding_all decide,
    c8_mutate_zero_strength trivialRng trivialRng_lawful () c8Policy naturalDomain
      (by with_unfolding_all decide)⟩

/-! ### C7: the returned best pair -/

/-- `specFirstSeenMax` is `none` only on the empty list. -/
theorem specFirstSeenMax_eq_none {l : List (Policy × ℚ)}
    (h : specFirstSeenMax l = none) : l = [] := by
  cases l with
  | nil => rfl
  | cons x xs =>
    unfold specFirstSeenMax at h
    cases hs : specFirstSeenMax xs with
    | none => rw [hs] at h; cases h
    | some y =>
      rw [hs] at h
      have h' : (if x.2 < y.2 then some y else some x) = none := h
      by_cases hlt : x.2 < y.2
      · rw [if_pos hlt] at h'; cases h'
      · rw [if_neg hlt] at h'; cases h'

/-- The head of the stable descending sort is the first-seen maximum. -/
theorem head?_sortDesc (l : List (Policy × ℚ)) :
    (sortDesc l).head? = specFirstSeenMax l := by
  induction l with
  | nil => rfl
  | cons x xs ih =>
    unfold sortDesc at ih ⊢
    rw [List.insertionSort]
    cases hs : xs.insertionSort (fun a b => b.2 ≤ a.2) with
    | nil =>
      have hnone : specFirstSeenMax xs = none := by rw [← ih, hs]; rfl
      simp [List.orderedInsert, specFirstSeenMax, hnone]
    | cons y ys =>
      have hsome : specFirstSeenMax xs = some y := by rw [← ih, hs]; rfl
      have hR : specFirstSeenMax (x :: xs) =
          if x.2 < y.2 then some y else some x := by
        unfold specFirstSeenMax
        rw [hsome]
      rw [List.orderedInsert, hR]
      by_cases h : y.2 ≤ x.2
      · rw [if_pos h, if_neg (not_lt.mpr h)]
        rfl
      · rw [if_neg h, if_pos (not_le.mp h)]
        rfl

/-- First-seen-maximum characterisation: the returned pair is a member,
every candidate scores no higher, and every strictly earlier candidate
scores strictly lower. -/
theorem specFirstSeenMax_spec :
    ∀ (l : List (Policy × ℚ)) (x : Policy × ℚ),
      specFirstSeenMax l = some x →
        x ∈ l ∧ (∀ y ∈ l, y.2 ≤ x.2) ∧
        ∃ l₁ l₂, l = l₁ ++ x :: l₂ ∧ ∀ y ∈ l₁, y.2 < x.2 := by
  intro l
  induction l with
  | nil => intro x h; cases h
  | cons a t ih =>
    intro x h
    unfold specFirstSeenMax at h
    cases hs : specFirstSeenMax t with
    | none =>
      rw [hs] at h
      injection h with h
      subst h
      have ht : t = [] := specFirstSeenMax_eq_none hs
      subst ht
      exact ⟨List.mem_cons_self a [], by simp, [], [], rfl, by simp⟩
    | some y =>
      rw [hs] at h
      replace h : (if a.2 < y.2 then some y else some a) = some x := h
      by_cases hlt : a.2 < y.2
      · rw [if_pos hlt] at h
        injection h with h
        subst h
        obtain ⟨hmem, hle, l₁, l₂, heq, hall⟩ := ih y hs
        refine ⟨List.mem_cons_of_mem a hmem, ?_, a :: l₁, l₂,
          by rw [heq, List.cons_append], ?_⟩
        · intro z hz
          rcases List.mem_cons.mp hz with hz | hz
          · subst hz; exact le_of_lt hlt
          · exact hle z hz
        · intro z hz
          rcases List.mem_cons.mp hz with hz | hz
          · subst hz; exact hlt
          · exact hall z hz
      · rw [if_neg hlt] at h
        injection h with h
        subst h
        obtain ⟨-, hle, -⟩ := ih y hs
        refine ⟨List.mem_cons_self a t, ?_, [], t, rfl, by simp⟩
        intro z hz
        rcases List.mem_cons.mp hz with hz | hz
        · subst hz; exact le_refl _
        · exact (hle z hz).trans (not_lt.mp hlt)

/-- C7: the `(best_policy, best_score)` pair `search` returns is exactly
the first-seen maximum-score candidate over every candidate evaluated in
every generation of the whole run (the evaluation-order `all_candidates`
accumulated by the loop), ties broken by evaluation order; and the
first-seen maximum is a genuine maximum attained at the earliest
position. -/
theorem c7_best_over_all_generations {σ : Type} (ops : RngOps σ)
    (f : String → Policy → ℚ) (opt : PolicyOptimizer σ) (domainName : String)
    (budget : ℕ) :
    ((PolicyOptimizer.search ops f opt domainName budget).toOption.map
        (fun r => (r.bestPolicy, r.bestScore)) =
      (searchStateCore ops f opt domainName budget).toOption.bind
        (fun st => specFirstSeenMax st.allCands)) ∧
    (∀ (l : List (Policy × ℚ)) (x : Policy × ℚ),
      specFirstSeenMax l = some x →
        x ∈ l ∧ (∀ y ∈ l, y.2 ≤ x.2) ∧
        ∃ l₁ l₂, l = l₁ ++ x :: l₂ ∧ ∀ y ∈ l₁, y.2 < x.2) := by
  constructor
  · cases hc : searchStateCore ops f opt domainName budget with
    | error e =>
      have hsearch : PolicyOptimizer.search ops f opt domainName budget = .error e := by
        unfold PolicyOptimizer.search
        rw [hc]
      rw [hsearch]
      rfl
    | ok st =>
      have hsearch : PolicyOptimizer.search ops f opt domainName budget =
          (match sortDesc st.allCands with
            | [] => .error .indexError
            | top :: rest =>
              .ok { bestPolicy := top.1, bestScore := top.2, domain := domainName
                    budgetUsed := st.evals, history := st.history
                    allCandidates := (top :: rest).take 20
                    seed := opt.config.seed }) := by
        unfold PolicyOptimizer.search
        rw [hc]
      rw [hsearch]
      cases hs : sortDesc st.allCands with
      | nil =>
        have hnone : specFirstSeenMax st.allCands = none := by
          rw [← head?_sortDesc, hs]; rfl
        simp [hnone, Except.toOption]
      | cons top rest =>
        have hsome : specFirstSeenMax st.allCands = some top := by
          rw [← head?_sortDesc, hs]; rfl
        simp [hsome, Except.toOption]
  · exact specFirstSeenMax_spec

/-! ### C6: evaluator bounds -/

theorem sum_le_length_of_le_one {l : List ℚ} (h : ∀ x ∈ l, x ≤ 1) :
    l.sum ≤ l.length := by
  induction l with
  | nil => simp
  | cons x t ih =>
    simp only [List.sum_cons, List.length_cons]
    push_cast
    have hx := h x (List.mem_cons_self x t)
    have ht := ih (fun y hy => h y (List.mem_cons_of_mem x hy))
    push_cast at ht
    linarith

theorem avgProb_bounds {p : Policy} (hp : p.wfProbs) (hne : p.transforms ≠ []) :
    0 ≤ avgProb p ∧ avgProb p ≤ 1 := by
  have hlen : (0 : ℚ) < p.transforms.length := by
    exact_mod_cast List.length_pos.mpr hne
  have h0 : 0 ≤ (p.transforms.map (·.probability)).sum :=
    List.sum_nonneg (by
      intro x hx
      obtain ⟨t, ht, rfl⟩ := List.mem_map.mp hx
      exact (hp t ht).1)
  have h1 : (p.transforms.map (·.probability)).sum ≤ p.transforms.length := by
    have := sum_le_length_of_le_one (l := p.transforms.map (·.probability)) (by
      intro x hx
      obtain ⟨t, ht, rfl⟩ := List.mem_map.mp hx
      exact (hp t ht).2)
    simpa using this
  unfold avgProb
  exact ⟨div_nonneg h0 (le_of_lt hlen), (div_le_one hlen).mpr h1⟩

theorem scoreStrength_bounds (p : Policy) (hp : p.wfProbs) :
    0 ≤ scoreStrength p ∧ scoreStrength p ≤ 1 := by
  unfold scoreStrength
  by_cases hne : p.transforms.isEmpty
  · rw [if_pos hne]
    norm_num
  · rw [if_neg hne]
    have hE : p.transforms ≠ [] := by simpa [List.isEmpty_iff] using hne
    obtain ⟨h0, h1⟩ := avgProb_bounds hp hE
    split_ifs with hA hB
    · have hq : avgProb p / (1/5) ≤ 1 := by
        rw [div_le_one (by norm_num)]
        linarith
      have hq0 : 0 ≤ avgProb p / (1/5) := div_nonneg h0 (by norm_num)
      constructor <;> linarith
    · have hq : (avgProb p - 4/5) / (1/5) ≤ 1 := by
        rw [div_le_one (by norm_num)]
        linarith
      have hq0 : 0 ≤ (avgProb p - 4/5) / (1/5) := div_nonneg (by linarith) (by norm_num)
      constructor <;> linarith
    · have habs : |avgProb p - 1/2| ≤ 3/10 :=
        abs_le.mpr ⟨by linarith [not_lt.mp hA], by linarith [not_lt.mp hB]⟩
      have h0' : 0 ≤ |avgProb p - 1/2| := abs_nonneg _
      have hq : |avgProb p - 1/2| / (3/10) ≤ 1 := by
        rw [div_le_one (by norm_num)]
        exact habs
      have hq0 : 0 ≤ |avgProb p - 1/2| / (3/10) := div_nonneg h0' (by norm_num)
      constructor <;> linarith

theorem scoreCoverage_bounds (p : Policy) :
    0 ≤ scoreCoverage p ∧ scoreCoverage p ≤ 1 := by
  unfold scoreCoverage
  refine ⟨le_of_lt (Real.exp_pos _), ?_⟩
  have hexp : -(((p.transforms.length : ℝ) - 6) ^ 2) / (2 * 3 ^ 2) ≤ 0 := by
    apply div_nonpos_of_nonpos_of_nonneg
    · simpa using sq_nonneg ((p.transforms.length : ℝ) - 6)
    · norm_num
  calc Real.exp (-(((p.transforms.length : ℝ) - 6) ^ 2) / (2 * 3 ^ 2))
      ≤ Real.exp 0 := Real.exp_le_exp.mpr hexp
    _ = 1 := Real.exp_zero

theorem categoriesUsed_subset (p : Policy) :
    categoriesUsed p ⊆ (evalCategoryTable.map (·.1)).toFinset := by
  unfold categoriesUsed
  have aux : ∀ (ts : List Transform) (s : Finset String),
      s ⊆ (evalCategoryTable.map (·.1)).toFinset →
      ts.foldl (fun s t =>
        match (evalCategoryTable.find? (fun c => t.name ∈ c.2)).map (·.1) with
        | some cat => insert cat s
        | none => s) s ⊆ (evalCategoryTable.map (·.1)).toFinset := by
    intro ts
    induction ts with
    | nil => intro s hs; exact hs
    | cons t ts ih =>
      intro s hs
      simp only [List.foldl_cons]
      apply ih
      cases hf : (evalCategoryTable.find? (fun c => t.name ∈ c.2)).map (·.1) with
      | none => exact hs
      | some cat =>
        obtain ⟨e, he, rfl⟩ := Option.map_eq_some'.mp hf
        have hmem : e ∈ evalCategoryTable := List.mem_of_find?_eq_some he
        exact Finset.insert_subset
          (List.mem_toFinset.mpr (List.mem_map.mpr ⟨e, hmem, rfl⟩)) hs
  exact aux p.transforms ∅ (Finset.empty_subset _)

theorem scoreDiversity_bounds (p : Policy) :
    0 ≤ scoreDiversity p ∧ scoreDiversity p ≤ 1 := by
  unfold scoreDiversity
  split_ifs with h
  · norm_num
  · have hcard : (categoriesUsed p).card ≤ 7 := by
      have := Finset.card_le_card (categoriesUsed_subset p)
      have h7 : ((evalCategoryTable.map (·.1)).toFinset).card = 7 := by decide
      omega
    have hlen : (evalCategoryTable.length : ℚ) = 7 := by norm_num [evalCategoryTable]
    rw [hlen]
    constructor
    · positivity
    · rw [div_le_one (by norm_num)]
      exact_mod_cast hcard

theorem varianceProbs_nonneg (p : Policy) : 0 ≤ varianceProbs p := by
  unfold varianceProbs
  apply div_nonneg
  · apply List.sum_nonneg
    intro x hx
    obtain ⟨q, hq, rfl⟩ := List.mem_map.mp hx
    positivity
  · positivity

theorem scoreBalance_bounds (p : Policy) :
    0 ≤ scoreBalance p ∧ scoreBalance p ≤ 1 := by
  unfold scoreBalance
  have h0 : 0 ≤ stdProbs p := Real.sqrt_nonneg _
  split_ifs with h1 h2 h3
  · norm_num
  · have hq : stdProbs p / (1/20) < 1 := by
      rw [div_lt_one (by norm_num)]
      exact h2
    have hq0 : 0 ≤ stdProbs p / (1/20) := div_nonneg h0 (by norm_num)
    constructor <;> linarith
  · constructor
    · exact le_trans (by norm_num) (le_max_left (3/10) _)
    · apply max_le (by norm_num)
      have : 0 ≤ (stdProbs p - 3/10) / (1/5) := div_nonneg (by linarith) (by norm_num)
      linarith
  · have hlow : 1/20 ≤ stdProbs p := not_lt.mp h2
    have hhigh : stdProbs p ≤ 3/10 := not_lt.mp h3
    have habs : |stdProbs p - 3/20| ≤ 3/20 :=
      abs_le.mpr ⟨by linarith, by linarith⟩
    have h0' : 0 ≤ |stdProbs p - 3/20| := abs_nonneg _
    have hq : |stdProbs p - 3/20| / (3/20) ≤ 1 := by
      rw [div_le_one (by norm_num)]
      exact habs
    have hq0 : 0 ≤ |stdProbs p - 3/20| / (3/20) := div_nonneg h0' (by norm_num)
    constructor <;> linarith

theorem domainFitScoreOf_bounds (o : Option Domain) (p : Policy)
    (hne : ¬p.transforms.isEmpty = true) :
    0 ≤ domainFitScoreOf o p ∧ domainFitScoreOf o p ≤ 1 := by
  cases o with
  | none =>
    constructor <;> norm_num [domainFitScoreOf]
  | some dObj =>
    simp only [domainFitScoreOf]
    have hlen : (0 : ℚ) < p.transforms.length := by
      have : p.transforms ≠ [] := by simpa [List.isEmpty_iff] using hne
      exact_mod_cast List.length_pos.mpr this
    have hcnt : (p.transforms.countP
          (fun t => t.name ∈ dObj.recommendedTransforms) : ℚ) ≤
        (p.transforms.length : ℚ) := by
      exact_mod_cast List.countP_le_length _
    have hq0 : (0 : ℚ) ≤ (p.transforms.countP
          (fun t => t.name ∈ dObj.recommendedTransforms) : ℚ) / p.transforms.length :=
      div_nonneg (by positivity) (le_of_lt hlen)
    have hq1 : (p.transforms.countP
          (fun t => t.name ∈ dObj.recommendedTransforms) : ℚ) / p.transforms.length ≤ 1 :=
      (div_le_one hlen).mpr hcnt
    constructor <;> linarith

theorem scoreDomainFit_bounds (domain : Option String) (p : Policy) :
    0 ≤ scoreDomainFit domain p ∧ scoreDomainFit domain p ≤ 1 := by
  cases domain with
  | none =>
    constructor <;> norm_num [scoreDomainFit]
  | some d =>
    simp only [scoreDomainFit]
    split_ifs with h1
    · norm_num
    · exact domainFitScoreOf_bounds _ p h1

/-- C6: for every policy (the empty one included) and every domain
setting, `evaluate` with the default weights and no custom evaluation
function returns a score in `[0,1]`, each of the five metrics lies in
`[0,1]`, and the normalised weights sum to 1.  The hypothesis is the
`Transform` constructor invariant `0 ≤ probability ≤ 1`. -/
theorem c6_evaluate_bounded (domainStr : Option String) (p : Policy)
    (hp : p.wfProbs) :
    ((PolicyEvaluator.init none domainStr none).weights.diversity +
      (PolicyEvaluator.init none domainStr none).weights.coverage +
      (PolicyEvaluator.init none domainStr none).weights.strength +
      (PolicyEvaluator.init none domainStr none).weights.balance +
      (PolicyEvaluator.init none domainStr none).weights.domainFit = 1) ∧
    (∀ m ∈ ((PolicyEvaluator.init none domainStr none).evaluate p).metrics,
      0 ≤ m.2 ∧ m.2 ≤ 1) ∧
    0 ≤ ((PolicyEvaluator.init none domainStr none).evaluate p).score ∧
    ((PolicyEvaluator.init none domainStr none).evaluate p).score ≤ 1 := by
  obtain ⟨hd0, hd1⟩ := scoreDiversity_bounds p
  obtain ⟨hc0, hc1⟩ := scoreCoverage_bounds p
  obtain ⟨hs0, hs1⟩ := scoreStrength_bounds p hp
  obtain ⟨hb0, hb1⟩ := scoreBalance_bounds p
  obtain ⟨hf0, hf1⟩ := scoreDomainFit_bounds domainStr p
  have hd0' : (0 : ℝ) ≤ ((scoreDiversity p : ℚ) : ℝ) := by exact_mod_cast hd0
  have hd1' : ((scoreDiversity p : ℚ) : ℝ) ≤ 1 := by exact_mod_cast hd1
  have hs0' : (0 : ℝ) ≤ ((scoreStrength p : ℚ) : ℝ) := by exact_mod_cast hs0
  have hs1' : ((scoreStrength p : ℚ) : ℝ) ≤ 1 := by exact_mod_cast hs1
  have hf0' : (0 : ℝ) ≤ ((scoreDomainFit domainStr p : ℚ) : ℝ) := by exact_mod_cast hf0
  have hf1' : ((scoreDomainFit domainStr p : ℚ) : ℝ) ≤ 1 := by exact_mod_cast hf1
  refine ⟨?_, ?_, ?_, ?_⟩
  · norm_num [PolicyEvaluator.init, normalizeWeights, defaultWeights]
  · intro m hm
    simp only [PolicyEvaluator.evaluate, PolicyEvaluator.init, Option.getD,
      List.mem_cons, List.not_mem_nil, or_false] at hm
    rcases hm with rfl | rfl | rfl | rfl | rfl
    · exact ⟨hd0', hd1'⟩
    · exact ⟨hc0, hc1⟩
    · exact ⟨hs0', hs1'⟩
    · exact ⟨hb0, hb1⟩
    · exact ⟨hf0', hf1'⟩
  · simp only [PolicyEvaluator.evaluate, PolicyEvaluator.init, Option.getD,
      List.map_cons, List.map_nil, List.sum_cons, List.sum_nil,
      show ∀ w : EvalWeights, weightGet w "diversity" = w.diversity from fun _ => rfl,
      show ∀ w : EvalWeights, weightGet w "coverage" = w.coverage from fun _ => rfl,
      show ∀ w : EvalWeights, weightGet w "strength" = w.strength from fun _ => rfl,
      show ∀ w : EvalWeights, weightGet w "balance" = w.balance from fun _ => rfl,
      show ∀ w : EvalWeights, weightGet w "domain_fit" = w.domainFit from fun _ => rfl,
      normalizeWeights, defaultWeights]
    norm_num
    linarith
  · simp only [PolicyEvaluator.evaluate, PolicyEvaluator.init, Option.getD,
      List.map_cons, List.map_nil, List.sum_cons, List.sum_nil,
      show ∀ w : EvalWeights, weightGet w "diversity" = w.diversity from fun _ => rfl,
      show ∀ w : EvalWeights, weightGet w "coverage" = w.coverage from fun _ => rfl,
      show ∀ w : EvalWeights, weightGet w "strength" = w.strength from fun _ => rfl,
      show ∀ w : EvalWeights, weightGet w "balance" = w.balance from fun _ => rfl,
      show ∀ w : EvalWeights, weightGet w "domain_fit" = w.domainFit from fun _ => rfl,
      normalizeWeights, defaultWeights]
    norm_num
    linarith

/-- The empty-policy fixture for the evaluator witness. -/
def c6Policy : Policy := { name := "empty", domain := "medical", transforms := [] }

theorem c6_witness :
    c6Policy.wfProbs ∧
      (((PolicyEvaluator.init none (some "medical") none).weights.diversity +
        (PolicyEvaluator.init none (some "medical") none).weights.coverage +
        (PolicyEvaluator.init none (some "medical") none).weights.strength +
        (PolicyEvaluator.init none (some "medical") none).weights.balance +
        (PolicyEvaluator.init none (some "medical") none).weights.domainFit = 1) ∧
      (∀ m ∈ ((PolicyEvaluator.init none (some "medical") none).evaluate c6Policy).metrics,
        0 ≤ m.2 ∧ m.2 ≤ 1) ∧
      0 ≤ ((PolicyEvaluator.init none (some "medical") none).evaluate c6Policy).score ∧
      ((PolicyEvaluator.init none (some "medical") none).evaluate c6Policy).score ≤ 1) :=
  ⟨by simp [Policy.wfProbs, c6Policy],
    c6_evaluate_bounded (some "medical") c6Policy (by simp [Policy.wfProbs, c6Policy])⟩

/-! ### C4: normal termination and budget respect -/

theorem mutate_ok {σ : Type} (ops : RngOps σ) (rng : σ) (p : Policy) (s : ℚ)
    {dObj : Domain} (hdom : getDomain? p.domain = some dObj) :
    PolicySampler.mutate ops rng p s = .ok (mutateCore ops dObj p s rng) := by
  unfold PolicySampler.mutate
  rw [hdom]

theorem mutateCore_domain {σ : Type} (ops : RngOps σ) (dObj : Domain)
    (p : Policy) (s : ℚ) (rng : σ) :
    (mutateCore ops dObj p s rng).1.domain = p.domain := rfl

theorem crossover_ok {σ : Type} (ops : RngOps σ) (rng : σ) (p1 p2 : Policy)
    {dObj : Domain} (hdom : getDomain? p1.domain = some dObj) :
    PolicySampler.crossover ops rng p1 p2 = .ok (crossoverCore ops p1 p2 rng) := by
  unfold PolicySampler.crossover
  rw [hdom]

theorem crossoverCore_domain {σ : Type} (ops : RngOps σ) (p1 p2 : Policy)
    (rng : σ) : (crossoverCore ops p1 p2 rng).1.domain = p1.domain := rfl

theorem validate_policy_domain (v : SafetyValidator) (p : Policy) :
    (v.validate p).policy.domain = p.domain := rfl

theorem enforcePolicy_policy_domain {d : Domain} {p q : Policy}
    (h : (RuleEnforcer.enforcePolicy d p).policy = some q) : q.domain = p.domain := by
  simp only [RuleEnforcer.enforcePolicy] at h
  split_ifs at h
  injection h with h
  rw [← h]
  rfl

theorem getD_mem_of_lt {α : Type} (l : List α) (i : ℕ) (d : α)
    (h : i < l.length) : l.getD i d ∈ l := by
  induction l generalizing i with
  | nil => exact absurd h (Nat.not_lt_zero i)
  | cons a t ih =>
    cases i with
    | zero => simp
    | succ i =>
      rw [List.getD_cons_succ]
      exact List.mem_cons_of_mem a (ih i (Nat.lt_of_succ_lt_succ h))

theorem mem_sortDesc {l : List (Policy × ℚ)} {x : Policy × ℚ} :
    x ∈ sortDesc l ↔ x ∈ l := (List.perm_insertionSort _ l).mem_iff

theorem sortDesc_ne_nil {l : List (Policy × ℚ)} (h : l ≠ []) : sortDesc l ≠ [] := by
  intro hs
  apply h
  unfold sortDesc at hs
  have := (List.perm_insertionSort (fun a b => b.2 ≤ a.2) l).length_eq
  rw [hs] at this
  exact List.length_eq_zero.mp this.symm

theorem genZip_length (f : String → Policy → ℚ) (domainName : String)
    (pop : List Policy) : (genZip f domainName pop).length = pop.length := by
  simp [genZip]

theorem genZip_ne_nil {f : String → Policy → ℚ} {domainName : String}
    {pop : List Policy} (h : pop ≠ []) : genZip f domainName pop ≠ [] := by
  intro hz
  apply h
  have := genZip_length f domainName pop
  rw [hz] at this
  exact List.length_eq_zero.mp this.symm

theorem mem_genZip_fst {f : String → Policy → ℚ} {domainName : String}
    {pop : List Policy} {x : Policy × ℚ} (h : x ∈ genZip f domainName pop) :
    x.1 ∈ pop := by
  unfold genZip at h
  exact (List.of_mem_zip h).1

/-- Every elite member comes from the sorted population. -/
theorem mem_eliteOf {cfg : OptimizerConfig} {popLen : ℕ}
    {sorted : List (Policy × ℚ)} {q : Policy} (h : q ∈ eliteOf cfg popLen sorted) :
    ∃ x ∈ sorted, x.1 = q := by
  unfold eliteOf at h
  obtain ⟨x, hx, rfl⟩ := List.mem_map.mp h
  exact ⟨x, List.mem_of_mem_take hx, rfl⟩

theorem eliteOf_ne_nil {cfg : OptimizerConfig} {popLen : ℕ}
    {top : Policy × ℚ} {rest : List (Policy × ℚ)} :
    eliteOf cfg popLen (top :: rest) ≠ [] := by
  intro h
  have := congrArg List.length h
  simp [eliteOf, List.length_take] at this

theorem eliteOf_length_le {cfg : OptimizerConfig} {popLen : ℕ}
    {sorted : List (Policy × ℚ)} :
    (eliteOf cfg popLen sorted).length ≤ sorted.length := by
  unfold eliteOf
  rw [List.length_map, List.length_take]
  exact min_le_right _ _

/-- The sampling loop returns at most `count` candidates. -/
theorem sampleLoop_length {σ : Type} (ops : RngOps σ) (dObj : Domain)
    (domainName : String) :
    ∀ (c i : ℕ) (rng : σ), (sampleLoop ops dObj domainName c i rng).1.length ≤ c := by
  intro c
  induction c with
  | zero => intro i rng; simp [sampleLoop]
  | succ c ih =>
    intro i rng
    unfold sampleLoop
    dsimp only
    split
    · simpa using Nat.succ_le_succ (ih _ _)
    · split
      · simpa using Nat.succ_le_succ (ih _ _)
      · exact le_trans (ih _ _) (Nat.le_succ c)

/-- Every sampled candidate's `domain` field is the requested domain
name. -/
theorem sampleLoop_domains {σ : Type} (ops : RngOps σ) (dObj : Domain)
    (domainName : String) :
    ∀ (c i : ℕ) (rng : σ) (q : Policy),
      q ∈ (sampleLoop ops dObj domainName c i rng).1 → q.domain = domainName := by
  intro c
  induction c with
  | zero => intro i rng q hq; simp [sampleLoop] at hq
  | succ c ih =>
    intro i rng q hq
    unfold sampleLoop at hq
    dsimp only at hq
    split at hq
    case _ heq1 heq2 =>
      simp only [List.mem_cons] at hq
      rcases hq with rfl | hq
      · rw [enforcePolicy_policy_domain heq2]
        rfl
      · exact ih _ _ q hq
    case _ =>
      split at hq
      case _ heq1 heq2 =>
        simp only [List.mem_cons] at hq
        rcases hq with rfl | hq
        · rw [enforcePolicy_policy_domain heq2]
          rfl
        · exact ih _ _ q hq
      case _ => exact ih _ _ q hq

theorem sample_eq {σ : Type} (ops : RngOps σ) (rng : σ) {domainName : String}
    {dObj : Domain} (hdom : getDomain? domainName = some dObj) (n : ℕ) :
    PolicySampler.sample ops rng domainName n =
      .ok (sampleLoop ops dObj domainName n 0 rng) := by
  unfold PolicySampler.sample
  rw [hdom]

theorem sortDesc_length (l : List (Policy × ℚ)) : (sortDesc l).length = l.length := by
  unfold sortDesc
  exact (List.perm_insertionSort (fun a b => b.2 ≤ a.2) l).length_eq

theorem append_singleton_ne_nil {α : Type} (l : List α) (x : α) : l ++ [x] ≠ [] := by
  intro h
  exact List.cons_ne_nil x [] (List.append_eq_nil.mp h).2

/-- The breeding loop always succeeds under a lawful generator: every
parent index drawn by `rng.sample` / `rng.choice` is in range, so crossover
and mutation apply to actual elite members (whose domain is registered);
children stay in the requested domain, and the accumulator never grows past
`max acc.length popSize` elements. -/
theorem breedLoop_ok {σ : Type} {ops : RngOps σ} (hL : LawfulRng ops)
    (cfg : OptimizerConfig) {elite : List Policy} {domainName : String}
    {dObj : Domain} (hdom : getDomain? domainName = some dObj)
    (hne : elite ≠ []) (hd : ∀ q ∈ elite, q.domain = domainName)
    (evals budget popSize : ℕ) :
    ∀ (fuel : ℕ) (rng : σ) (acc : List Policy),
      (∀ q ∈ acc, q.domain = domainName) →
      ∃ res, breedLoop ops cfg elite evals budget popSize fuel rng acc = .ok res ∧
        res.1.length ≤ max acc.length popSize ∧
        (∀ q ∈ res.1, q.domain = domainName) ∧
        (acc ≠ [] → res.1 ≠ []) := by
  intro fuel
  induction fuel with
  | zero =>
    intro rng acc hacc
    exact ⟨(acc, rng), rfl, le_max_left _ _, hacc, fun h => h⟩
  | succ fuel ih =>
    intro rng acc hacc
    unfold breedLoop
    dsimp only
    split_ifs with hl hb hcx
    · exact ⟨(acc, rng), rfl, le_max_left _ _, hacc, fun h => h⟩
    · obtain ⟨h2e, -⟩ := hcx
      have hslen : (ops.sampleIdxs elite.length 2 (ops.random rng).2).1.length = 2 :=
        hL.sampleIdxs_length _ _ _ h2e
      have hi0 : (ops.sampleIdxs elite.length 2 (ops.random rng).2).1.getD 0 0 <
          elite.length :=
        hL.sampleIdxs_lt _ _ _ h2e _ (getD_mem_of_lt _ _ _ (by omega))
      have hp1 : (elite.getD ((ops.sampleIdxs elite.length 2 (ops.random rng).2).1.getD 0 0)
          default).domain = domainName :=
        hd _ (getD_mem_of_lt _ _ _ hi0)
      rw [crossover_ok ops (ops.sampleIdxs elite.length 2 (ops.random rng).2).2
        (elite.getD ((ops.sampleIdxs elite.length 2 (ops.random rng).2).1.getD 0 0) default)
        (elite.getD ((ops.sampleIdxs elite.length 2 (ops.random rng).2).1.getD 1 0) default)
        (by rw [hp1]; exact hdom)]
      dsimp only
      obtain ⟨res, hres, hlen2, hdom2, hne2⟩ :=
        ih (crossoverCore ops
              (elite.getD ((ops.sampleIdxs elite.length 2 (ops.random rng).2).1.getD 0 0) default)
              (elite.getD ((ops.sampleIdxs elite.length 2 (ops.random rng).2).1.getD 1 0) default)
              (ops.sampleIdxs elite.length 2 (ops.random rng).2).2).2
           (acc ++ [(crossoverCore ops
              (elite.getD ((ops.sampleIdxs elite.length 2 (ops.random rng).2).1.getD 0 0) default)
              (elite.getD ((ops.sampleIdxs elite.length 2 (ops.random rng).2).1.getD 1 0) default)
              (ops.sampleIdxs elite.length 2 (ops.random rng).2).2).1])
           (by
             intro q hq
             rcases List.mem_append.mp hq with hq | hq
             · exact hacc q hq
             · rw [List.mem_singleton.mp hq, crossoverCore_domain]
               exact hp1)
      simp only [List.length_append, List.length_singleton] at hlen2
      exact ⟨res, hres, by omega, hdom2, fun _ => hne2 (append_singleton_ne_nil _ _)⟩
    · have h0e : 0 < elite.length := List.length_pos.mpr hne
      have hic : (ops.choiceIdx elite.length (ops.random rng).2).1 < elite.length :=
        hL.choiceIdx_lt _ _ h0e
      have hp1 : (elite.getD (ops.choiceIdx elite.length (ops.random rng).2).1
          default).domain = domainName :=
        hd _ (getD_mem_of_lt _ _ _ hic)
      rw [mutate_ok ops (ops.choiceIdx elite.length (ops.random rng).2).2
        (elite.getD (ops.choiceIdx elite.length (ops.random rng).2).1 default)
        cfg.mutationStrength (by rw [hp1]; exact hdom)]
      dsimp only
      obtain ⟨res, hres, hlen2, hdom2, hne2⟩ :=
        ih (mutateCore ops dObj
              (elite.getD (ops.choiceIdx elite.length (ops.random rng).2).1 default)
              cfg.mutationStrength
              (ops.choiceIdx elite.length (ops.random rng).2).2).2
           (acc ++ [(mutateCore ops dObj
              (elite.getD (ops.choiceIdx elite.length (ops.random rng).2).1 default)
              cfg.mutationStrength
              (ops.choiceIdx elite.length (ops.random rng).2).2).1])
           (by
             intro q hq
             rcases List.mem_append.mp hq with hq | hq
             · exact hacc q hq
             · rw [List.mem_singleton.mp hq, mutateCore_domain]
               exact hp1)
      simp only [List.length_append, List.length_singleton] at hlen2
      exact ⟨res, hres, by omega, hdom2, fun _ => hne2 (append_singleton_ne_nil _ _)⟩
    · exact ⟨(acc, rng), rfl, le_max_left _ _, hacc, fun h => h⟩

/-- The generation loop always succeeds under a lawful generator when the
population is nonempty, in the registered domain, and no larger than
`popSize`; every generation adds at most `popSize` evaluations, and as soon
as one generation runs within budget the candidate record is nonempty. -/
theorem genLoop_ok {σ : Type} {ops : RngOps σ} (hL : LawfulRng ops)
    (f : String → Policy → ℚ) (cfg : OptimizerConfig) {domainName : String}
    {dObj : Domain} (hdom : getDomain? domainName = some dObj)
    (budget popSize : ℕ) :
    ∀ (g : ℕ) (st : LoopState σ),
      st.population ≠ [] →
      st.population.length ≤ popSize →
      (∀ q ∈ st.population, q.domain = domainName) →
      ∃ st', genLoop ops f cfg domainName budget popSize g st = .ok st' ∧
        st'.evals ≤ st.evals + g * popSize ∧
        (st.allCands ≠ [] → st'.allCands ≠ []) ∧
        (1 ≤ g → st.evals < budget → st'.allCands ≠ []) := by
  intro g
  induction g with
  | zero =>
    intro st h1 h2 h3
    exact ⟨st, rfl, by omega, fun h => h, fun h => absurd h (by omega)⟩
  | succ g ih =>
    intro st h1 h2 h3
    have hpops : popSize ≤ (g + 1) * popSize :=
      le_mul_of_one_le_left (Nat.zero_le popSize) (by omega)
    by_cases hbud : budget ≤ st.evals
    · unfold genLoop
      rw [if_pos hbud]
      exact ⟨st, rfl, Nat.le_add_right _ _, fun h => h,
        fun _ hlt => absurd hbud (by omega)⟩
    · unfold genLoop
      rw [if_neg hbud]
      have hgz : genZip f domainName st.population ≠ [] := genZip_ne_nil h1
      cases hcc : sortDesc (genZip f domainName st.population) with
      | nil => exact absurd hcc (sortDesc_ne_nil hgz)
      | cons top rest =>
        dsimp only
        have hnonempty2 : st.allCands ++ genZip f domainName st.population ≠ [] :=
          fun hnil => hgz (List.append_eq_nil.mp hnil).2
        split_ifs with hpat
        · refine ⟨_, rfl, ?_, ?_, ?_⟩
          · exact Nat.add_le_add_left (le_trans h2 hpops) st.evals
          · intro _
            exact hnonempty2
          · intro _ _
            exact hnonempty2
        · have hel_ne : eliteOf cfg st.population.length (top :: rest) ≠ [] :=
            eliteOf_ne_nil
          have hel_dom : ∀ q ∈ eliteOf cfg st.population.length (top :: rest),
              q.domain = domainName := by
            intro q hq
            obtain ⟨x, hx, hxq⟩ := mem_eliteOf hq
            have hx2 : x ∈ sortDesc (genZip f domainName st.population) := by
              rw [hcc]; exact hx
            rw [← hxq]
            exact h3 _ (mem_genZip_fst (mem_sortDesc.mp hx2))
          have hel_len : (eliteOf cfg st.population.length (top :: rest)).length ≤
              popSize := by
            refine le_trans eliteOf_length_le ?_
            have hts : (top :: rest).length = st.population.length := by
              rw [← hcc, sortDesc_length, genZip_length]
            omega
          obtain ⟨res, hres, hrlen, hrdom, hrne⟩ :=
            breedLoop_ok hL cfg hdom hel_ne hel_dom
              (st.evals + st.population.length) budget popSize
              (popSize - (eliteOf cfg st.population.length (top :: rest)).length)
              st.rng (eliteOf cfg st.population.length (top :: rest)) hel_dom
          rw [hres]
          dsimp only
          obtain ⟨st', hgen, hev, hpres, -⟩ :=
            ih { genIdx := st.genIdx + 1, population := res.1,
                 allCands := st.allCands ++ genZip f domainName st.population,
                 history := st.history ++
                   [statsOf st.genIdx st.population.length (top :: rest) top.2],
                 bestEver := (impUpdate st.bestEver st.noImp top.2).1,
                 noImp := (impUpdate st.bestEver st.noImp top.2).2,
                 evals := st.evals + st.population.length, rng := res.2 }
              (hrne hel_ne) (le_trans hrlen (max_le hel_len le_rfl)) hrdom
          refine ⟨st', hgen, ?_, fun _ => hpres hnonempty2, fun _ _ => hpres hnonempty2⟩
          have hev' : st'.evals ≤ st.evals + st.population.length + g * popSize := hev
          have h6 : st.population.length + g * popSize ≤ (g + 1) * popSize := by
            calc st.population.length + g * popSize ≤ popSize + g * popSize :=
                  Nat.add_le_add_right h2 _
              _ = (g + 1) * popSize := by ring
          calc st'.evals ≤ st.evals + st.population.length + g * popSize := hev'
            _ = st.evals + (st.population.length + g * popSize) := by ring
            _ ≤ st.evals + (g + 1) * popSize := Nat.add_le_add_left h6 _

/-- C4, amended: the claim's "for every budget value" fails (budgets below
2 raise `ZeroDivisionError`, see the C10 theorem and `c4_counterexample`).
For every budget of at least 2, a positive configured population size, a
lawful generator, a registered domain, and an initial sample that is not
empty, `PolicyOptimizer.search` terminates normally and the returned
result satisfies `budget_used ≤ budget`: the population is sized
`min(population_size, budget // 2)`, at most `budget // pop_size`
generations run, and each adds at most `pop_size` evaluations. -/
theorem c4_amended {σ : Type} (ops : RngOps σ) (f : String → Policy → ℚ)
    (cfg : OptimizerConfig) (domainName : String) (budget : ℕ) (dObj : Domain)
    (hL : LawfulRng ops) (hdom : getDomain? domainName = some dObj)
    (hb : 2 ≤ budget) (hp : 1 ≤ cfg.populationSize)
    (hns : initialSampleNonempty ops cfg domainName budget = true) :
    ∃ r, PolicyOptimizer.search ops f (PolicyOptimizer.init ops cfg) domainName
        budget = .ok r ∧ r.budgetUsed ≤ budget := by
  have hps : 1 ≤ min cfg.populationSize (budget / 2) := by omega
  have hcore : searchStateCore ops f (PolicyOptimizer.init ops cfg) domainName budget =
      genLoop ops f cfg domainName budget (min cfg.populationSize (budget / 2))
        (budget / min cfg.populationSize (budget / 2))
        { genIdx := 0
          population := (sampleLoop ops dObj domainName
            (min cfg.populationSize (budget / 2)) 0 (ops.mkRng cfg.seed)).1
          allCands := [], history := [], bestEver := none, noImp := 0, evals := 0
          rng := (sampleLoop ops dObj domainName
            (min cfg.populationSize (budget / 2)) 0 (ops.mkRng cfg.seed)).2 } := by
    unfold searchStateCore
    dsimp only [PolicyOptimizer.init]
    rw [if_neg (by omega), sample_eq ops _ hdom]
  have hne0 : (sampleLoop ops dObj domainName (min cfg.populationSize (budget / 2)) 0
      (ops.mkRng cfg.seed)).1 ≠ [] := by
    unfold initialSampleNonempty at hns
    rw [sample_eq ops _ hdom] at hns
    have hns' : Bool.not (sampleLoop ops dObj domainName
        (min cfg.populationSize (budget / 2)) 0
        (ops.mkRng cfg.seed)).1.isEmpty = true := hns
    intro hnil
    rw [hnil] at hns'
    simp at hns'
  obtain ⟨st', hgen, hev, hpres, hcand⟩ :=
    genLoop_ok hL f cfg hdom budget (min cfg.populationSize (budget / 2))
      (budget / min cfg.populationSize (budget / 2))
      { genIdx := 0
        population := (sampleLoop ops dObj domainName
          (min cfg.populationSize (budget / 2)) 0 (ops.mkRng cfg.seed)).1
        allCands := [], history := [], bestEver := none, noImp := 0, evals := 0
        rng := (sampleLoop ops dObj domainName
          (min cfg.populationSize (budget / 2)) 0 (ops.mkRng cfg.seed)).2 }
      hne0 (sampleLoop_length ops dObj domainName _ _ _)
      (sampleLoop_domains ops dObj domainName _ _ _)
  have hmax1 : 1 ≤ budget / min cfg.populationSize (budget / 2) := by
    have hmle : min cfg.populationSize (budget / 2) ≤ budget := by omega
    have h0 : 0 < min cfg.populationSize (budget / 2) := by omega
    exact (Nat.one_le_div_iff h0).mpr hmle
  have hcand' : st'.allCands ≠ [] := hcand hmax1 (show 0 < budget by omega)
  have hev' : st'.evals ≤ 0 + budget / min cfg.populationSize (budget / 2) *
      min cfg.populationSize (budget / 2) := hev
  have hbound : st'.evals ≤ budget := by
    refine le_trans hev' ?_
    rw [Nat.zero_add]
    exact Nat.div_mul_le_self _ _
  cases hs : sortDesc st'.allCands with
  | nil => exact absurd hs (sortDesc_ne_nil hcand')
  | cons top rest =>
    have hsearch : PolicyOptimizer.search ops f (PolicyOptimizer.init ops cfg)
        domainName budget =
        (match sortDesc st'.allCands with
          | [] => .error .indexError
          | top :: rest =>
            .ok { bestPolicy := top.1, bestScore := top.2, domain := domainName
                  budgetUsed := st'.evals, history := st'.history
                  allCandidates := (top :: rest).take 20
                  seed := (PolicyOptimizer.init ops cfg).config.seed }) := by
      unfold PolicyOptimizer.search
      rw [hcore, hgen]
    rw [hs] at hsearch
    exact ⟨_, hsearch, hbound⟩

/-- C4 counterexample to the original "for every budget value" claim: at
budget 1 (a valid budget value), `pop_size = min(20, 1 // 2) = 0` and
`budget // pop_size` raises `ZeroDivisionError` instead of returning a
`SearchResult`. -/
theorem c4_counterexample :
    PolicyOptimizer.search trivialRng (fun _ _ => 0)
      (PolicyOptimizer.init trivialRng {}) "natural" 1 =
      .error .divisionByZero := by
  with_unfolding_all rfl

/-- Witness for the amended C4 theorem: the default config on the natural
domain at budget 4 with the degenerate generator returns normally within
budget. -/
theorem c4_witness :
    ∃ r, PolicyOptimizer.search trivialRng (fun _ _ => 0)
        (PolicyOptimizer.init trivialRng {}) "natural" 4 = .ok r ∧
      r.budgetUsed ≤ 4 :=
  c4_amended trivialRng (fun _ _ => 0) {} "natural" 4 naturalDomain
    trivialRng_lawful (by with_unfolding_all rfl) (by norm_num)
    (by with_unfolding_all decide) (by with_unfolding_all decide)

end AugmentAI
